import Mathlib

/-! # detect: frame loop, rate estimator and result publication

A shallow embedding of `src/detect.cpp`:

* `update_fps` : the 30-slot rate estimator, as a function of its static state
  and of the clock reading;
* `handle_vsl` : one cycle of the event loop, as a function of what the frame
  source, the clocks and the engine answer during the cycle, returning the
  `int` result together with the trace of calls made on the external interfaces;
* `main_step` / `main_loop` : the `while (running)` loop of `main`.
* `main_options` : the option parsing of `main`, over a model of `getopt_long`.
* `data.result_to_json` / `data.result_from_json` : the message bodies as JSON
  values, with the field lists of the source.

Conventions.  C `int` values are integers reduced to 32 bits by `to_int`
(two's-complement wrap-around); clock readings and the `int64_t` fields are
integers counting nanoseconds.  `float` values are never computed with, only
copied, and are carried as bit patterns.  A division by zero has no defined
result: `update_fps`, and with it `handle_vsl`, then yield `none`; so does a
read of the box vector past its end.
-/

set_option maxRecDepth 8192

namespace Detect

/-! ## Data model (`namespace data`) -/

/-- A C `float`, carried as its 32-bit pattern. -/
structure float where
  bits : Nat
  deriving DecidableEq, Repr

namespace data

/-- The `struct box` of the source. -/
structure box where
  xmin : float
  xmax : float
  ymin : float
  ymax : float
  deriving DecidableEq, Repr

/-- The `struct object` of the source. -/
structure object where
  label : String
  score : float
  bbox : box
  deriving DecidableEq, Repr

/-- The `struct result` of the source. -/
structure result where
  timestamp : Int
  fps : Int
  load_ns : Int
  model_ns : Int
  boxes_ns : Int
  objects : List object
  deriving DecidableEq, Repr

/-- The `struct capture` of the source. -/
structure capture where
  timestamp : Int
  serial : Int
  deriving DecidableEq, Repr

end data

/-! ## Constants -/

def USEC_PER_SEC : Int := 1000000

def NSEC_PER_SEC : Int := 1000 * USEC_PER_SEC

def EXIT_SUCCESS : Int := 0

def EXIT_FAILURE : Int := 1

/-- Reduction of an integer to the range of a 32-bit signed `int`. -/
def to_int (x : Int) : Int := (x + 2 ^ 31) % 2 ^ 32 - 2 ^ 31

/-! ## `update_fps` -/

/-- The three `static` variables of `update_fps`. -/
structure FpsState where
  previous_time : Int
  fps_history : List Int
  fps_index : Nat
  deriving DecidableEq, Repr

/-- Zero initialisation of the statics: epoch, thirty zeros, index 0. -/
def FpsState.init : FpsState :=
  { previous_time := 0, fps_history := List.replicate 30 0, fps_index := 0 }

/-- The loop `for (int i = 0; i < 30; i++) { fps += fps_history[i]; }` in `int` arithmetic. -/
def sum_history (fps_history : List Int) : Int :=
  (List.range 30).foldl (fun fps i => to_int (fps + fps_history.getD i 0)) 0

/-- One call of `update_fps` at clock reading `timestamp`; `none` when the
divisor `frame_time.count()` is zero. -/
def update_fps (s : FpsState) (timestamp : Int) : Option (FpsState × Int) :=
  let frame_time := timestamp - s.previous_time
  if frame_time = 0 then none
  else
    let fps_history := s.fps_history.set s.fps_index (to_int (NSEC_PER_SEC.tdiv frame_time))
    let fps_index := if s.fps_index ≥ 29 then 0 else s.fps_index + 1
    let fps := sum_history fps_history
    some ({ previous_time := timestamp, fps_history := fps_history, fps_index := fps_index },
          to_int (fps.tdiv 30))

/-- Successive calls of `update_fps` at the given clock readings: final state
and the returned values in call order. -/
def fps_calls (s : FpsState) : List Int → Option (FpsState × List Int)
  | [] => some (s, [])
  | t :: ts =>
    match update_fps s t with
    | none => none
    | some (s1, r) =>
      match fps_calls s1 ts with
      | none => none
      | some (s2, rs) => some (s2, r :: rs)

/-- Value returned by the last of the calls made at the given clock readings,
starting from the initial statics. -/
def last_fps (times : List Int) : Option Int :=
  match fps_calls FpsState.init times with
  | none => none
  | some (_, rs) => rs.getLast?

/-! ## External interfaces of one cycle -/

/-- What the accessors of a `VSLFrame` return. -/
structure VSLFrame where
  timestamp : Int
  serial : Int
  handle : Int
  fourcc : Nat
  width : Int
  height : Int
  deriving DecidableEq, Repr

/-- The fields of a `VAALBox` that `handle_vsl` reads. -/
structure VAALBox where
  xmin : float
  ymin : float
  xmax : float
  ymax : float
  score : float
  label : Int
  deriving DecidableEq, Repr

/-- Body of a published message before serialisation. -/
inductive Payload where
  | capture (c : data.capture)
  | result (r : data.result)
  deriving DecidableEq, Repr

/-- A message handed to `pub.send`: the string `topic + payload.dump(4)`,
kept as its topic prefix and the record that is serialised. -/
structure Message where
  topic : String
  payload : Payload
  deriving DecidableEq, Repr

def Message.isCapture (m : Message) : Bool :=
  match m.payload with
  | .capture _ => true
  | .result _ => false

def Message.isResult (m : Message) : Bool :=
  match m.payload with
  | .capture _ => false
  | .result _ => true

/-- The four places where `handle_vsl` reports a lock or engine error. -/
inductive Failure where
  | lock
  | load
  | run
  | boxes
  deriving DecidableEq, Repr

/-- Calls made by `handle_vsl` and `main` on the frame source, the clocks, the
engine, the publish socket and the standard streams. -/
inductive Event where
  | frame_wait
  | frame_trylock (f : VSLFrame)
  | frame_release (f : VSLFrame)
  | frame_unlock (f : VSLFrame)
  | frame_timestamp (f : VSLFrame)
  | frame_serial (f : VSLFrame)
  | frame_handle (f : VSLFrame)
  | frame_fourcc (f : VSLFrame)
  | frame_width (f : VSLFrame)
  | frame_height (f : VSLFrame)
  | system_clock_now
  | vaal_clock_now
  | load_frame_dmabuf (handle : Int) (fourcc : Nat) (width : Int) (height : Int)
  | run_model
  | vaal_boxes (max_boxes : Nat)
  | vaal_label (index : Int)
  | stderr (what : Failure)
  | stdout (m : Message)
  | send (m : Message)
  | context_release
  deriving DecidableEq, Repr

/-- Frames released in a trace, in order. -/
def released (tr : List Event) : List VSLFrame :=
  tr.filterMap fun e => match e with
    | .frame_release f => some f
    | _ => none

/-- Messages sent on the publish socket in a trace, in order. -/
def sent (tr : List Event) : List Message :=
  tr.filterMap fun e => match e with
    | .send m => some m
    | _ => none

/-- Engine operations (load, run, extract) in a trace. -/
def engine_calls (tr : List Event) : List Event :=
  tr.filter fun e => match e with
    | .load_frame_dmabuf _ _ _ _ => true
    | .run_model => true
    | .vaal_boxes _ => true
    | _ => false

/-- The parameters of `handle_vsl` that stay fixed over the loop, the global
`verbose`, and the label table of the engine. -/
structure Config where
  topic : String
  capture : String
  verbose : Bool
  vaal_label : Int → Option String

/-- What the environment answers during one call of `handle_vsl`. -/
structure Cycle where
  /-- result of `vsl_frame_wait` (`none` for `NULL`) -/
  wait : Option VSLFrame
  /-- result of `vsl_frame_trylock` -/
  trylock : Int
  /-- reading of `system_clock::now()` inside `update_fps` -/
  now : Int
  /-- the six readings of `vaal_clock_now`, in call order -/
  load_start : Int
  load_end : Int
  run_start : Int
  run_end : Int
  boxes_start : Int
  boxes_end : Int
  /-- results of the three engine calls -/
  load_err : Int
  run_err : Int
  boxes_err : Int
  /-- the count stored in `n_boxes` and the box vector after `vaal_boxes` -/
  n_boxes : Nat
  boxes : List VAALBox

/-- Result of one call of `handle_vsl`. -/
structure Ret where
  ret : Int
  fps_state : FpsState
  trace : List Event
  deriving DecidableEq, Repr

/-! ## `handle_vsl` -/

/-- The object pushed for one engine box. -/
def make_object (cfg : Config) (b : VAALBox) : data.object :=
  { label := match cfg.vaal_label b.label with
      | some label => label
      | none => ""
    score := b.score
    bbox := { xmin := b.xmin, xmax := b.xmax, ymin := b.ymin, ymax := b.ymax } }

/-- The loop `for (int i = 0; i < n_boxes; i++)` from index `i`, with `todo`
iterations left: objects pushed so far and calls made so far. -/
def objects_loop (cfg : Config) (boxes : List VAALBox) :
    Nat → Nat → List data.object × List Event → Option (List data.object × List Event)
  | 0, _, acc => some acc
  | todo + 1, i, acc =>
    match boxes.get? i with
    | none => none
    | some b =>
      objects_loop cfg boxes todo (i + 1)
        (acc.1 ++ [make_object cfg b], acc.2 ++ [Event.vaal_label b.label])

/-- Printing of a message when `verbose` is set. -/
def verbose_print (cfg : Config) (m : Message) : List Event :=
  if cfg.verbose then [Event.stdout m] else []

/-- One call of `handle_vsl(pub, topic, capture, vaal, boxes)`. -/
def handle_vsl (cfg : Config) (s : FpsState) (o : Cycle) : Option Ret :=
  match o.wait with
  | none => some { ret := 0, fps_state := s, trace := [Event.frame_wait] }
  | some frame =>
    if o.trylock ≠ 0 then
      some { ret := 0, fps_state := s,
             trace := [.frame_wait, .frame_trylock frame, .stderr .lock, .frame_release frame] }
    else
      match update_fps s o.now with
      | none => none
      | some (s1, fps) =>
        let timestamp := frame.timestamp
        let t1 : List Event :=
          [.frame_wait, .frame_trylock frame, .system_clock_now, .frame_timestamp frame]
        let t2 : List Event :=
          if cfg.capture.length ≠ 0 then
            let message : Message :=
              { topic := cfg.capture,
                payload := .capture { timestamp := timestamp, serial := frame.serial } }
            [.frame_serial frame] ++ verbose_print cfg message ++ [.send message]
          else []
        let t3 : List Event :=
          [.vaal_clock_now, .frame_handle frame, .frame_fourcc frame, .frame_width frame,
           .frame_height frame,
           .load_frame_dmabuf frame.handle frame.fourcc frame.width frame.height,
           .frame_unlock frame, .frame_release frame]
        if o.load_err ≠ 0 then
          some { ret := -1, fps_state := s1, trace := t1 ++ t2 ++ t3 ++ [.stderr .load] }
        else
          let load_ns := o.load_end - o.load_start
          let t4 : List Event := [.vaal_clock_now, .vaal_clock_now, .run_model]
          if o.run_err ≠ 0 then
            some { ret := -1, fps_state := s1, trace := t1 ++ t2 ++ t3 ++ t4 ++ [.stderr .run] }
          else
            let model_ns := o.run_end - o.run_start
            let t5 : List Event := [.vaal_clock_now, .vaal_clock_now, .vaal_boxes o.boxes.length]
            if o.boxes_err ≠ 0 then
              some { ret := -1, fps_state := s1,
                     trace := t1 ++ t2 ++ t3 ++ t4 ++ t5 ++ [.stderr .boxes] }
            else
              let boxes_ns := o.boxes_end - o.boxes_start
              match objects_loop cfg o.boxes o.n_boxes 0 ([], []) with
              | none => none
              | some (objects, t6) =>
                let result : data.result :=
                  { timestamp := timestamp, fps := fps, load_ns := load_ns,
                    model_ns := model_ns, boxes_ns := boxes_ns, objects := objects }
                let message : Message := { topic := cfg.topic, payload := .result result }
                some { ret := 0, fps_state := s1,
                       trace := t1 ++ t2 ++ t3 ++ t4 ++ t5 ++ [.vaal_clock_now] ++ t6
                                ++ verbose_print cfg message ++ [.send message] }

/-! ## The loop of `main` -/

/-- Where `main` stands: in the `while (running)` loop, or returned. -/
inductive Status where
  | looping
  | returned (code : Int)
  deriving DecidableEq, Repr

/-- State of `main` from the first test of the loop condition on. -/
structure Loop where
  status : Status
  fps_state : FpsState
  trace : List Event
  cycles : Nat
  deriving DecidableEq, Repr

/-- Entry into the loop. -/
def Loop.init : Loop :=
  { status := .looping, fps_state := FpsState.init, trace := [], cycles := 0 }

/-- One test of the loop condition, reading `running`, followed when it holds
by one call of `handle_vsl` and the test of its result. -/
def main_step (cfg : Config) (l : Loop) (running : Int) (o : Cycle) : Option Loop :=
  match l.status with
  | .returned _ => some l
  | .looping =>
    if running = 0 then
      some { l with status := .returned EXIT_SUCCESS, trace := l.trace ++ [.context_release] }
    else
      match handle_vsl cfg l.fps_state o with
      | none => none
      | some r =>
        some { status := if r.ret ≠ 0 then .returned EXIT_FAILURE else .looping
               fps_state := r.fps_state
               trace := l.trace ++ r.trace
               cycles := l.cycles + 1 }

/-- The loop run against a script of (value of `running` at the test, answers
of the environment during the cycle). -/
def main_loop (cfg : Config) (l : Loop) : List (Int × Cycle) → Option Loop
  | [] => some l
  | (running, o) :: rest =>
    match main_step cfg l running o with
    | none => none
    | some l1 => main_loop cfg l1 rest

/-! ## Pieces of the trace of `handle_vsl` -/

/-- The cycle meets no operation without a defined result: when `update_fps` is
reached the clock has moved since its previous call, and when the box loop is
reached the engine reports no more boxes than the vector holds. -/
def Cycle.defined (s : FpsState) (o : Cycle) : Prop :=
  o.wait ≠ none → o.trylock = 0 →
    o.now - s.previous_time ≠ 0 ∧
      (o.load_err = 0 → o.run_err = 0 → o.boxes_err = 0 → o.n_boxes ≤ o.boxes.length)

/-- Message of the capture event of a frame. -/
def capture_message (cfg : Config) (frame : VSLFrame) : Message :=
  { topic := cfg.capture,
    payload := .capture { timestamp := frame.timestamp, serial := frame.serial } }

/-- Calls made from the capture block. -/
def capture_events (cfg : Config) (frame : VSLFrame) : List Event :=
  if cfg.capture.length ≠ 0 then
    [.frame_serial frame] ++ verbose_print cfg (capture_message cfg frame)
      ++ [.send (capture_message cfg frame)]
  else []

/-- Calls made from `vsl_frame_wait` up to the release of the frame, once the
lock is held. -/
def load_events (cfg : Config) (frame : VSLFrame) : List Event :=
  [.frame_wait, .frame_trylock frame, .system_clock_now, .frame_timestamp frame]
    ++ capture_events cfg frame
    ++ [.vaal_clock_now, .frame_handle frame, .frame_fourcc frame, .frame_width frame,
        .frame_height frame,
        .load_frame_dmabuf frame.handle frame.fourcc frame.width frame.height,
        .frame_unlock frame, .frame_release frame]

/-- The clock reading that closes the load timing, then the timed model run. -/
def run_events : List Event := [.vaal_clock_now, .vaal_clock_now, .run_model]

/-- The clock reading that closes the run timing, then the timed box extraction. -/
def boxes_events (o : Cycle) : List Event :=
  [.vaal_clock_now, .vaal_clock_now, .vaal_boxes o.boxes.length]

/-- The record published on the success path. -/
def result_record (cfg : Config) (frame : VSLFrame) (fps : Int) (o : Cycle) : data.result :=
  { timestamp := frame.timestamp, fps := fps, load_ns := o.load_end - o.load_start,
    model_ns := o.run_end - o.run_start, boxes_ns := o.boxes_end - o.boxes_start,
    objects := (o.boxes.take o.n_boxes).map (make_object cfg) }

/-- Message of the result on the success path. -/
def result_message (cfg : Config) (frame : VSLFrame) (fps : Int) (o : Cycle) : Message :=
  { topic := cfg.topic, payload := .result (result_record cfg frame fps o) }

/-- Calls made after the box extraction on the success path. -/
def publish_events (cfg : Config) (frame : VSLFrame) (fps : Int) (o : Cycle) : List Event :=
  [.vaal_clock_now] ++ (o.boxes.take o.n_boxes).map (fun b => Event.vaal_label b.label)
    ++ verbose_print cfg (result_message cfg frame fps o)
    ++ [.send (result_message cfg frame fps o)]

/-- The engine call that fails in a cycle in which one does: the first of
load, run, extract with a non-zero result. -/
def failing_call (frame : VSLFrame) (o : Cycle) : Event :=
  if o.load_err ≠ 0 then
    .load_frame_dmabuf frame.handle frame.fourcc frame.width frame.height
  else if o.run_err ≠ 0 then .run_model
  else .vaal_boxes o.boxes.length

/-! ## Sample inputs -/

def ex_frame : VSLFrame :=
  { timestamp := 5000, serial := 7, handle := 3, fourcc := 1448695129, width := 640,
    height := 480 }

/-- A label table with two entries. -/
def ex_labels (index : Int) : Option String :=
  if index = 0 then some "background" else if index = 1 then some "person" else none

def ex_cfg : Config :=
  { topic := "DETECTION", capture := "CAPTURE", verbose := false, vaal_label := ex_labels }

def ex_background : VAALBox :=
  { xmin := ⟨0⟩, ymin := ⟨0⟩, xmax := ⟨0⟩, ymax := ⟨0⟩, score := ⟨0⟩, label := 0 }

/-- The box `person`, score 0.9, corners 0.1 and 0.5. -/
def ex_person : VAALBox :=
  { xmin := ⟨1036831949⟩, ymin := ⟨1036831949⟩, xmax := ⟨1056964608⟩, ymax := ⟨1056964608⟩,
    score := ⟨1063675494⟩, label := 1 }

/-- A box whose label index the engine does not resolve. -/
def ex_unnamed : VAALBox :=
  { xmin := ⟨1036831949⟩, ymin := ⟨1045220557⟩, xmax := ⟨1056964608⟩, ymax := ⟨1061158912⟩,
    score := ⟨1060320051⟩, label := 9 }

/-- A cycle in which every step succeeds and the engine reports two boxes in a
vector of three. -/
def ex_cycle : Cycle :=
  { wait := some ex_frame, trylock := 0, now := 1000, load_start := 10, load_end := 14,
    run_start := 15, run_end := 40, boxes_start := 41, boxes_end := 43, load_err := 0,
    run_err := 0, boxes_err := 0, n_boxes := 2, boxes := [ex_background, ex_person, ex_unnamed] }

/-- The sample cycle with an empty poll. -/
def ex_no_frame : Cycle := { ex_cycle with wait := none }

/-- The sample cycle with a failing lock. -/
def ex_lock_failed : Cycle := { ex_cycle with trylock := -1 }

/-- The sample cycle with a failing model run. -/
def ex_run_failed : Cycle := { ex_cycle with run_err := 2 }

/-- The `objects` lists of the result messages sent in a trace. -/
def published_objects (tr : List Event) : List (List data.object) :=
  (sent tr).filterMap fun m => match m.payload with
    | .result res => some res.objects
    | .capture _ => none

/-- The sample cycle with a box that has no label as only detection. -/
def ex_cycle_unnamed : Cycle := { ex_cycle with n_boxes := 1, boxes := [ex_unnamed, ex_person] }

/-- What `handle_vsl` returns on the sample cycle from the initial statics. -/
def ex_ret : Ret :=
  { ret := 0
    fps_state :=
      { previous_time := 1000, fps_history := 1000000 :: List.replicate 29 0, fps_index := 1 }
    trace := load_events ex_cfg ex_frame ++ run_events ++ boxes_events ex_cycle
      ++ publish_events ex_cfg ex_frame 33333 ex_cycle }

/-! ## Description of the rate estimator

The sequence of samples, the history array and the statics after a sequence of
calls, written down independently of `update_fps`. -/

/-- Samples `1e9 / elapsed` (truncating) of calls made at the given clock
readings, the first elapsed time being measured from `prev`. -/
def samples_from (prev : Int) : List Int → List Int
  | [] => []
  | t :: ts => NSEC_PER_SEC.tdiv (t - prev) :: samples_from t ts

/-- Every elapsed interval of the calls is non-zero. -/
def intervals_nonzero (prev : Int) : List Int → Prop
  | [] => True
  | t :: ts => t - prev ≠ 0 ∧ intervals_nonzero t ts

/-- Clock readings of `n` calls at exactly 30 fps from `start` on: each
33,333,333 ns after the previous one. -/
def at_30fps (start : Int) (n : Nat) : List Int :=
  (List.range n).map fun (i : Nat) => start + 33333333 * (i : Int)

/-- The history array after calls with the given samples, described slot by
slot: slot `j` holds the sample of the latest call that wrote it, 0 when no
call has written it yet. -/
def history_of (samples : List Int) : List Int :=
  (List.range 30).map fun j =>
    if j < samples.length then
      samples.getD (samples.length - 1 - (samples.length - 1 - j) % 30) 0
    else 0

/-- The statics of `update_fps` after calls at the given clock readings. -/
def state_after (times : List Int) : FpsState :=
  { previous_time := times.getLastD 0
    fps_history := history_of (samples_from 0 times)
    fps_index := times.length % 30 }

/-- The last `n` entries of a list of samples. -/
def last_samples (n : Nat) (samples : List Int) : List Int :=
  samples.drop (samples.length - n)

/-- Calls applied to a frame in a trace: lock, unlock, release, the accessors,
and the load that is handed the frame's buffer. -/
def frame_calls (tr : List Event) : List Event :=
  tr.filter fun e => match e with
    | .frame_trylock _ => true
    | .frame_release _ => true
    | .frame_unlock _ => true
    | .frame_timestamp _ => true
    | .frame_serial _ => true
    | .frame_handle _ => true
    | .frame_fourcc _ => true
    | .frame_width _ => true
    | .frame_height _ => true
    | .load_frame_dmabuf _ _ _ _ => true
    | _ => false

/-- Calls of a locked cycle that come before the send of the capture event. -/
def before_capture (cfg : Config) (frame : VSLFrame) : List Event :=
  [.frame_wait, .frame_trylock frame, .system_clock_now, .frame_timestamp frame,
   .frame_serial frame] ++ verbose_print cfg (capture_message cfg frame)

/-- Calls from the start of the load timing up to the release of the frame. -/
def after_capture (frame : VSLFrame) : List Event :=
  [.vaal_clock_now, .frame_handle frame, .frame_fourcc frame, .frame_width frame,
   .frame_height frame,
   .load_frame_dmabuf frame.handle frame.fourcc frame.width frame.height,
   .frame_unlock frame, .frame_release frame]

/-- Every elapsed interval of the calls is at least `d` nanoseconds. -/
def intervals_at_least (d : Int) (prev : Int) : List Int → Prop
  | [] => True
  | t :: ts => d ≤ t - prev ∧ intervals_at_least d t ts

/-! ## Option parsing of `main` -/

/-- An entry of the `options` table (`struct option`): name, whether it takes an
argument (`required_argument`), and the value `getopt_long` returns for it. -/
structure option where
  name : String
  has_arg : Bool
  val : Char
  deriving DecidableEq, Repr

/-- The table `options[]` of `main`. -/
def options : List option :=
  [ { name := "help", has_arg := false, val := 'h' },
    { name := "version", has_arg := false, val := 'V' },
    { name := "verbose", has_arg := false, val := 'v' },
    { name := "engine", has_arg := true, val := 'e' },
    { name := "vsl", has_arg := true, val := 's' },
    { name := "pub", has_arg := true, val := 'p' },
    { name := "topic", has_arg := true, val := 't' },
    { name := "capture-topic", has_arg := true, val := 'c' },
    { name := "max-boxes", has_arg := true, val := 'm' },
    { name := "threshold", has_arg := true, val := 'T' },
    { name := "iou", has_arg := true, val := 'I' } ]

/-- The short-option string handed to `getopt_long`. -/
def optstring : String := "hVve:m:s:p:t:c:T:I:"

/-- Look-up of a short option in an option string: `none` when it is not an
option character, else whether a colon follows it. -/
def short_lookup : List Char → Char → Option Bool
  | [], _ => none
  | x :: rest, c =>
    if x = c ∧ c ≠ ':' then some (rest.head? = some ':') else short_lookup rest c

/-- Look-up of a long option by name: the exact name, or else the only entry
the given name abbreviates. -/
def long_lookup (name : List Char) : Option option :=
  match options.find? (fun o => o.name.toList = name) with
  | some o => some o
  | none =>
    match options.filter (fun o => name.isPrefixOf o.name.toList) with
    | [o] => some o
    | _ => none

/-- The options of a word `-abc`: the pairs (value returned, `optarg`) it
yields, and the option still waiting for the next word as its argument. -/
def short_word : List Char → List (Char × String) × Option Char
  | [] => ([], none)
  | c :: cs =>
    match short_lookup optstring.toList c with
    | none => (('?', "") :: (short_word cs).1, (short_word cs).2)
    | some false => ((c, "") :: (short_word cs).1, (short_word cs).2)
    | some true =>
      match cs with
      | [] => ([], some c)
      | _ :: _ => ([(c, String.mk cs)], none)

/-- The option of a word `--name` or `--name=value`. -/
def long_word (w : List Char) : List (Char × String) × Option Char :=
  let name := w.takeWhile (fun c => c ≠ '=')
  let value := (w.dropWhile (fun c => c ≠ '=')).tail?
  match long_lookup name with
  | none => ([('?', "")], none)
  | some o =>
    match o.has_arg, value with
    | true, some v => ([(o.val, String.mk v)], none)
    | true, none => ([], some o.val)
    | false, some _ => ([('?', "")], none)
    | false, none => ([(o.val, "")], none)

/-- The successive results of `getopt_long` over the words after `argv[0]`, as
pairs (value returned, `optarg`) with `'?'` for a rejected word, and the
operands left at `argv[optind]` and after when it returns -1.  `pending` is an
option waiting for the next word as its argument. -/
def getopt_long : Option Char → List String → List String → List (Char × String) × List String
  | some c, a :: rest, operands =>
    ((c, a) :: (getopt_long none rest operands).1, (getopt_long none rest operands).2)
  | some _, [], operands => ([('?', "")], operands)
  | none, [], operands => ([], operands)
  | none, a :: rest, operands =>
    match a.toList with
    | ['-', '-'] => ([], operands ++ rest)
    | '-' :: '-' :: w =>
      ((long_word w).1 ++ (getopt_long (long_word w).2 rest operands).1,
       (getopt_long (long_word w).2 rest operands).2)
    | '-' :: c :: cs =>
      ((short_word (c :: cs)).1 ++ (getopt_long (short_word (c :: cs)).2 rest operands).1,
       (getopt_long (short_word (c :: cs)).2 rest operands).2)
    | _ => getopt_long none rest (operands ++ [a])

/-- A numeric variable of `main`: its initialiser, or the conversion (`atoi`,
`atof`) of an option argument. -/
inductive Number where
  | initial (text : String)
  | converted (optarg : String)
  deriving DecidableEq, Repr

/-- The variables of `main` that the options set, and the model path. -/
structure Settings where
  max_boxes : Number
  threshold : Number
  iou : Number
  engine : String
  vslpath : String
  puburl : String
  topic : String
  capture : String
  verbose : Int
  model : String
  deriving DecidableEq, Repr

/-- The initialisers of `main` (and of the global `verbose`). -/
def Settings.init : Settings :=
  { max_boxes := .initial "50", threshold := .initial "0.5f", iou := .initial "0.5f",
    engine := "npu", vslpath := "/tmp/camera.vsl", puburl := "ipc:///tmp/detect.pub",
    topic := "DETECTION", capture := "", verbose := 0, model := "" }

/-- Outcome of the option parsing: `main` returns an exit code, or goes on with
the settings. -/
inductive Parsed where
  | exit (code : Int)
  | settings (st : Settings)
  deriving DecidableEq, Repr

/-- The `switch (opt)` of `main`, over the successive results of `getopt_long`. -/
def main_switch (st : Settings) : List (Char × String) → Parsed
  | [] => .settings st
  | (opt, optarg) :: rest =>
    match opt with
    | 'h' => .exit EXIT_SUCCESS
    | 'V' => .exit EXIT_SUCCESS
    | 'v' => main_switch { st with verbose := 1 } rest
    | 'e' => main_switch { st with engine := optarg } rest
    | 'm' => main_switch { st with max_boxes := .converted optarg } rest
    | 'T' => main_switch { st with threshold := .converted optarg } rest
    | 't' => main_switch { st with topic := optarg } rest
    | 'c' => main_switch { st with capture := optarg } rest
    | 's' => main_switch { st with vslpath := optarg } rest
    | 'p' => main_switch { st with puburl := optarg } rest
    | _ => .exit EXIT_FAILURE

/-- Option parsing of `main`, from `argv` to the exit code or the settings with
which the engine is set up. -/
def main_options (argv : List String) : Parsed :=
  match main_switch Settings.init (getopt_long none argv.tail []).1 with
  | .exit code => .exit code
  | .settings st =>
    match (getopt_long none argv.tail []).2 with
    | [] => .exit EXIT_FAILURE
    | model :: _ => .settings { st with model := model }

/-- The value handed to the engine as `iou_threshold`. -/
def iou_threshold (st : Settings) : Number := st.iou

/-! ## Wire format of the messages -/

/-- Modelled from the spec: the JSON values of the message bodies (spec §6,
"Message wire format"); the JSON library `json.hpp` is not among the sources.
An integer number holds an `int64_t` or `int` field, a floating number a
`float` field, an object its fields by key. -/
inductive Json where
  | null
  | integer (n : Int)
  | number (x : float)
  | string (s : String)
  | array (items : List Json)
  | object (fields : List (String × Json))

namespace data

/-- Value-initialised `box`, the fallback of an absent `bbox`. -/
def box.default : box := { xmin := ⟨0⟩, xmax := ⟨0⟩, ymin := ⟨0⟩, ymax := ⟨0⟩ }

/-- Modelled from the spec: serialisation of a `box`, with the field list of
`NLOHMANN_DEFINE_TYPE_NON_INTRUSIVE_WITH_DEFAULT(box, xmin, xmax, ymin, ymax)`. -/
def box_to_json (b : box) : Json :=
  .object [("xmin", .number b.xmin), ("xmax", .number b.xmax), ("ymin", .number b.ymin),
           ("ymax", .number b.ymax)]

/-- Modelled from the spec: serialisation of an `object`, field list
`(object, bbox, score, label)`. -/
def object_to_json (ob : object) : Json :=
  .object [("bbox", box_to_json ob.bbox), ("score", .number ob.score),
           ("label", .string ob.label)]

/-- Modelled from the spec: serialisation of a `result`, field list
`(result, timestamp, fps, load_ns, model_ns, boxes_ns, objects)`. -/
def result_to_json (r : result) : Json :=
  .object [("timestamp", .integer r.timestamp), ("fps", .integer r.fps),
           ("load_ns", .integer r.load_ns), ("model_ns", .integer r.model_ns),
           ("boxes_ns", .integer r.boxes_ns),
           ("objects", .array (r.objects.map object_to_json))]

/-- Modelled from the spec: serialisation of a `capture`, field list
`(capture, timestamp, serial)`. -/
def capture_to_json (c : capture) : Json :=
  .object [("timestamp", .integer c.timestamp), ("serial", .integer c.serial)]

/-- Modelled from the spec: reading of an integer field with default-value
fallback: an absent field gives 0.  A present field of another kind is a case
the spec leaves open and has no result. -/
def integer_value : Option Json → Option Int
  | none => some 0
  | some (.integer n) => some n
  | some _ => none

/-- Modelled from the spec: reading of a `float` field; an absent field gives 0. -/
def float_value : Option Json → Option float
  | none => some ⟨0⟩
  | some (.number x) => some x
  | some _ => none

/-- Modelled from the spec: reading of a string field; an absent field gives
the empty string. -/
def string_value : Option Json → Option String
  | none => some ""
  | some (.string s) => some s
  | some _ => none

/-- Modelled from the spec: deserialisation of a `box` field; an absent field
gives the default box, absent coordinates their defaults. -/
def box_from_json : Option Json → Option box
  | none => some box.default
  | some (.object fields) =>
    match float_value (fields.lookup "xmin"), float_value (fields.lookup "xmax"),
          float_value (fields.lookup "ymin"), float_value (fields.lookup "ymax") with
    | some xmin, some xmax, some ymin, some ymax =>
      some { xmin := xmin, xmax := xmax, ymin := ymin, ymax := ymax }
    | _, _, _, _ => none
  | some _ => none

/-- Modelled from the spec: deserialisation of an `object`. -/
def object_from_json : Json → Option object
  | .object fields =>
    match box_from_json (fields.lookup "bbox"), float_value (fields.lookup "score"),
          string_value (fields.lookup "label") with
    | some bbox, some score, some label => some { label := label, score := score, bbox := bbox }
    | _, _, _ => none
  | _ => none

/-- Modelled from the spec: deserialisation of the items of an array of
objects, in array order. -/
def items_from_json : List Json → Option (List object)
  | [] => some []
  | j :: rest =>
    match object_from_json j, items_from_json rest with
    | some ob, some l => some (ob :: l)
    | _, _ => none

/-- Modelled from the spec: deserialisation of the `objects` field; an absent
field gives the empty sequence. -/
def objects_from_json : Option Json → Option (List object)
  | none => some []
  | some (.array items) => items_from_json items
  | some _ => none

/-- Modelled from the spec: deserialisation of a `result` from a message body. -/
def result_from_json : Json → Option result
  | .object fields =>
    match integer_value (fields.lookup "timestamp"), integer_value (fields.lookup "fps"),
          integer_value (fields.lookup "load_ns"), integer_value (fields.lookup "model_ns"),
          integer_value (fields.lookup "boxes_ns"), objects_from_json (fields.lookup "objects") with
    | some timestamp, some fps, some load_ns, some model_ns, some boxes_ns, some objects =>
      some { timestamp := timestamp, fps := fps, load_ns := load_ns, model_ns := model_ns,
             boxes_ns := boxes_ns, objects := objects }
    | _, _, _, _, _, _ => none
  | _ => none

end data

/-- The JSON value `json payload = record` of a message. -/
def Message.body (m : Message) : Json :=
  match m.payload with
  | .capture c => data.capture_to_json c
  | .result r => data.result_to_json r

/-- The string `topic + payload.dump(4)` handed to `pub.send`, for a text
rendering `dump` of JSON values. -/
def Message.text (dump : Json → String) (m : Message) : String :=
  m.topic ++ dump m.body

/-! ## The box loop and the paths through `handle_vsl` -/

theorem objects_loop_eq (cfg : Config) (boxes : List VAALBox) :
    ∀ (todo i : Nat) (acc : List data.object × List Event), i + todo ≤ boxes.length →
      objects_loop cfg boxes todo i acc =
        some (acc.1 ++ ((boxes.drop i).take todo).map (make_object cfg),
              acc.2 ++ ((boxes.drop i).take todo).map (fun b => Event.vaal_label b.label)) := by
  intro todo
  induction todo with
  | zero => intro i acc _; simp [objects_loop]
  | succ n ih =>
    intro i acc h
    have hi : i < boxes.length := by omega
    have hd : boxes.drop i = boxes[i] :: boxes.drop (i + 1) := List.drop_eq_getElem_cons hi
    simp only [objects_loop, List.get?_eq_getElem?, List.getElem?_eq_getElem hi]
    rw [ih (i + 1) _ (by omega), hd]
    simp only [List.take_succ_cons, List.map_cons, List.append_assoc, List.cons_append, List.nil_append]

theorem released_append (a b : List Event) : released (a ++ b) = released a ++ released b := by
  simp [released, List.filterMap_append]

theorem sent_append (a b : List Event) : sent (a ++ b) = sent a ++ sent b := by
  simp [sent, List.filterMap_append]

theorem engine_calls_append (a b : List Event) :
    engine_calls (a ++ b) = engine_calls a ++ engine_calls b := by
  simp [engine_calls, List.filter_append]

theorem released_labels (l : List VAALBox) :
    released (l.map (fun b => Event.vaal_label b.label)) = [] := by
  induction l with
  | nil => rfl
  | cons b l ih => simp [released]

theorem sent_labels (l : List VAALBox) :
    sent (l.map (fun b => Event.vaal_label b.label)) = [] := by
  induction l with
  | nil => rfl
  | cons b l ih => simp [sent]

theorem released_verbose_print (cfg : Config) (m : Message) :
    released (verbose_print cfg m) = [] := by
  unfold verbose_print; split <;> rfl

theorem sent_verbose_print (cfg : Config) (m : Message) :
    sent (verbose_print cfg m) = [] := by
  unfold verbose_print; split <;> rfl

theorem update_fps_isSome (s : FpsState) (now : Int) (h : now - s.previous_time ≠ 0) :
    ∃ s1 fps, update_fps s now = some (s1, fps) := by
  simp [update_fps, h]

theorem handle_vsl_no_frame (cfg : Config) (s : FpsState) (o : Cycle) (hw : o.wait = none) :
    handle_vsl cfg s o = some { ret := 0, fps_state := s, trace := [.frame_wait] } := by
  simp [handle_vsl, hw]

theorem handle_vsl_lock_failed (cfg : Config) (s : FpsState) (o : Cycle) (frame : VSLFrame)
    (hw : o.wait = some frame) (hl : o.trylock ≠ 0) :
    handle_vsl cfg s o = some
      { ret := 0, fps_state := s,
        trace := [.frame_wait, .frame_trylock frame, .stderr .lock, .frame_release frame] } := by
  simp [handle_vsl, hw, hl]

theorem handle_vsl_load_failed (cfg : Config) (s s1 : FpsState) (o : Cycle) (frame : VSLFrame)
    (fps : Int) (hw : o.wait = some frame) (hl : o.trylock = 0)
    (hu : update_fps s o.now = some (s1, fps)) (h1 : o.load_err ≠ 0) :
    handle_vsl cfg s o = some
      { ret := -1, fps_state := s1,
        trace := load_events cfg frame ++ [.stderr .load] } := by
  simp [handle_vsl, hw, hl, hu, h1, load_events, capture_events, capture_message]

theorem handle_vsl_run_failed (cfg : Config) (s s1 : FpsState) (o : Cycle) (frame : VSLFrame)
    (fps : Int) (hw : o.wait = some frame) (hl : o.trylock = 0)
    (hu : update_fps s o.now = some (s1, fps)) (h1 : o.load_err = 0) (h2 : o.run_err ≠ 0) :
    handle_vsl cfg s o = some
      { ret := -1, fps_state := s1,
        trace := load_events cfg frame ++ run_events ++ [.stderr .run] } := by
  simp [handle_vsl, hw, hl, hu, h1, h2, load_events, capture_events, capture_message, run_events]

theorem handle_vsl_boxes_failed (cfg : Config) (s s1 : FpsState) (o : Cycle) (frame : VSLFrame)
    (fps : Int) (hw : o.wait = some frame) (hl : o.trylock = 0)
    (hu : update_fps s o.now = some (s1, fps)) (h1 : o.load_err = 0) (h2 : o.run_err = 0)
    (h3 : o.boxes_err ≠ 0) :
    handle_vsl cfg s o = some
      { ret := -1, fps_state := s1,
        trace := load_events cfg frame ++ run_events ++ boxes_events o ++ [.stderr .boxes] } := by
  simp [handle_vsl, hw, hl, hu, h1, h2, h3, load_events, capture_events, capture_message,
    run_events, boxes_events]

theorem handle_vsl_published (cfg : Config) (s s1 : FpsState) (o : Cycle) (frame : VSLFrame)
    (fps : Int) (hw : o.wait = some frame) (hl : o.trylock = 0)
    (hu : update_fps s o.now = some (s1, fps)) (h1 : o.load_err = 0) (h2 : o.run_err = 0)
    (h3 : o.boxes_err = 0) (hn : o.n_boxes ≤ o.boxes.length) :
    handle_vsl cfg s o = some
      { ret := 0, fps_state := s1,
        trace := load_events cfg frame ++ run_events ++ boxes_events o
          ++ publish_events cfg frame fps o } := by
  have hb := objects_loop_eq cfg o.boxes o.n_boxes 0 ([], []) (by omega)
  simp only [List.drop_zero, List.nil_append] at hb
  simp [handle_vsl, hw, hl, hu, h1, h2, h3, hb, load_events, capture_events, capture_message,
    run_events, boxes_events, publish_events, result_message, result_record]

/-! ### What each piece of a trace releases, sends and runs -/

theorem sent_capture_events (cfg : Config) (frame : VSLFrame) :
    sent (capture_events cfg frame)
      = if cfg.capture.length ≠ 0 then [capture_message cfg frame] else [] := by
  unfold capture_events
  split
  · simp only [sent_append, sent_verbose_print]; rfl
  · rfl

theorem released_capture_events (cfg : Config) (frame : VSLFrame) :
    released (capture_events cfg frame) = [] := by
  unfold capture_events
  split
  · simp only [released_append, released_verbose_print]; rfl
  · rfl

theorem engine_calls_verbose_print (cfg : Config) (m : Message) :
    engine_calls (verbose_print cfg m) = [] := by
  unfold verbose_print; split <;> rfl

theorem engine_calls_capture_events (cfg : Config) (frame : VSLFrame) :
    engine_calls (capture_events cfg frame) = [] := by
  unfold capture_events
  split
  · simp only [engine_calls_append, engine_calls_verbose_print]; rfl
  · rfl

theorem released_load_events (cfg : Config) (frame : VSLFrame) :
    released (load_events cfg frame) = [frame] := by
  simp only [load_events, released_append, released_capture_events]; rfl

theorem sent_load_events (cfg : Config) (frame : VSLFrame) :
    sent (load_events cfg frame)
      = if cfg.capture.length ≠ 0 then [capture_message cfg frame] else [] := by
  simp only [load_events, sent_append, sent_capture_events]
  split <;> rfl

theorem released_publish_events (cfg : Config) (frame : VSLFrame) (fps : Int) (o : Cycle) :
    released (publish_events cfg frame fps o) = [] := by
  simp only [publish_events, released_append, released_verbose_print, released_labels]; rfl

theorem sent_publish_events (cfg : Config) (frame : VSLFrame) (fps : Int) (o : Cycle) :
    sent (publish_events cfg frame fps o) = [result_message cfg frame fps o] := by
  simp only [publish_events, sent_append, sent_verbose_print, sent_labels]; rfl

/-- Classification of a call of `handle_vsl` without undefined operation by the
path it takes. -/
theorem handle_vsl_paths (cfg : Config) (s : FpsState) (o : Cycle) (h : o.defined s) :
    (o.wait = none ∧
      handle_vsl cfg s o = some { ret := 0, fps_state := s, trace := [.frame_wait] }) ∨
    (∃ frame, o.wait = some frame ∧ o.trylock ≠ 0 ∧
      handle_vsl cfg s o = some
        { ret := 0, fps_state := s,
          trace := [.frame_wait, .frame_trylock frame, .stderr .lock, .frame_release frame] }) ∨
    (∃ frame s1 fps, o.wait = some frame ∧ o.trylock = 0 ∧ update_fps s o.now = some (s1, fps) ∧
      ((o.load_err ≠ 0 ∧
          handle_vsl cfg s o = some
            { ret := -1, fps_state := s1, trace := load_events cfg frame ++ [.stderr .load] }) ∨
       (o.load_err = 0 ∧ o.run_err ≠ 0 ∧
          handle_vsl cfg s o = some
            { ret := -1, fps_state := s1,
              trace := load_events cfg frame ++ run_events ++ [.stderr .run] }) ∨
       (o.load_err = 0 ∧ o.run_err = 0 ∧ o.boxes_err ≠ 0 ∧
          handle_vsl cfg s o = some
            { ret := -1, fps_state := s1,
              trace := load_events cfg frame ++ run_events ++ boxes_events o
                ++ [.stderr .boxes] }) ∨
       (o.load_err = 0 ∧ o.run_err = 0 ∧ o.boxes_err = 0 ∧ o.n_boxes ≤ o.boxes.length ∧
          handle_vsl cfg s o = some
            { ret := 0, fps_state := s1,
              trace := load_events cfg frame ++ run_events ++ boxes_events o
                ++ publish_events cfg frame fps o }))) := by
  cases hw : o.wait with
  | none => exact Or.inl ⟨rfl, handle_vsl_no_frame cfg s o hw⟩
  | some frame =>
    by_cases hl : o.trylock = 0
    · obtain ⟨hne, hb⟩ := h (by simp [hw]) hl
      obtain ⟨s1, fps, hu⟩ := update_fps_isSome s o.now hne
      refine Or.inr (Or.inr ⟨frame, s1, fps, rfl, hl, hu, ?_⟩)
      by_cases h1 : o.load_err = 0
      · by_cases h2 : o.run_err = 0
        · by_cases h3 : o.boxes_err = 0
          · exact Or.inr (Or.inr (Or.inr ⟨h1, h2, h3, hb h1 h2 h3,
              handle_vsl_published cfg s s1 o frame fps hw hl hu h1 h2 h3 (hb h1 h2 h3)⟩))
          · exact Or.inr (Or.inr (Or.inl ⟨h1, h2, h3,
              handle_vsl_boxes_failed cfg s s1 o frame fps hw hl hu h1 h2 h3⟩))
        · exact Or.inr (Or.inl ⟨h1, h2, handle_vsl_run_failed cfg s s1 o frame fps hw hl hu h1 h2⟩)
      · exact Or.inl ⟨h1, handle_vsl_load_failed cfg s s1 o frame fps hw hl hu h1⟩
    · exact Or.inr (Or.inl ⟨frame, rfl, hl,
        handle_vsl_lock_failed cfg s o frame hw hl⟩)

theorem objects_loop_none (cfg : Config) (boxes : List VAALBox) :
    ∀ (todo i : Nat) (acc : List data.object × List Event), i ≤ boxes.length →
      boxes.length < i + todo → objects_loop cfg boxes todo i acc = none := by
  intro todo
  induction todo with
  | zero => intro i acc h1 h2; omega
  | succ n ih =>
    intro i acc h1 h2
    by_cases hi : i < boxes.length
    · simp only [objects_loop, List.get?_eq_getElem?, List.getElem?_eq_getElem hi]
      exact ih (i + 1) _ (by omega) (by omega)
    · have hnone : boxes[i]? = none := List.getElem?_eq_none (by omega)
      simp only [objects_loop, List.get?_eq_getElem?, hnone]

/-- A call of `handle_vsl` that returns met no undefined operation. -/
theorem handle_vsl_defined (cfg : Config) (s : FpsState) (o : Cycle) (r : Ret)
    (hr : handle_vsl cfg s o = some r) : o.defined s := by
  intro hw hl
  obtain ⟨frame, hf⟩ := Option.ne_none_iff_exists'.mp hw
  cases hu : update_fps s o.now with
  | none => simp [handle_vsl, hf, hl, hu] at hr
  | some p =>
    refine ⟨fun h0 => ?_, fun h1 h2 h3 => ?_⟩
    · simp [update_fps, h0] at hu
    · by_contra hn
      have hb := objects_loop_none cfg o.boxes o.n_boxes 0 ([], []) (by omega) (by omega)
      simp [handle_vsl, hf, hl, hu, h1, h2, h3, hb] at hr

theorem length_ne_zero_of_ne_empty (t : String) (h : t ≠ "") : t.length ≠ 0 := by
  intro h0
  apply h
  cases t with
  | mk data =>
    have : data = [] := List.length_eq_zero.mp h0
    subst this
    rfl

theorem length_empty : ("" : String).length = 0 := rfl

/-- Messages sent by a call of `handle_vsl` that returns: nothing, or for the
frame obtained the capture message (when a capture topic is set) followed on the
success path by the result message. -/
theorem sent_handle_vsl (cfg : Config) (s : FpsState) (o : Cycle) (r : Ret)
    (hr : handle_vsl cfg s o = some r) :
    sent r.trace = [] ∨
    ∃ frame, o.wait = some frame ∧
      (sent r.trace = (if cfg.capture.length ≠ 0 then [capture_message cfg frame] else []) ∨
       ∃ fps, sent r.trace = (if cfg.capture.length ≠ 0 then [capture_message cfg frame] else [])
                ++ [result_message cfg frame fps o]) := by
  rcases handle_vsl_paths cfg s o (handle_vsl_defined cfg s o r hr) with
    ⟨hw, hp⟩ | ⟨frame, hw, -, hp⟩ |
    ⟨frame, s1, fps, hw, -, -, ⟨-, hp⟩ | ⟨-, -, hp⟩ | ⟨-, -, -, hp⟩ | ⟨-, -, -, -, hp⟩⟩
  all_goals
    rw [hp] at hr
    cases Option.some.inj hr
  · exact Or.inl rfl
  · exact Or.inl rfl
  · refine Or.inr ⟨frame, hw, Or.inl ?_⟩
    simp only [sent_append, sent_load_events]
    split <;> rfl
  · refine Or.inr ⟨frame, hw, Or.inl ?_⟩
    simp only [sent_append, sent_load_events]
    split <;> rfl
  · refine Or.inr ⟨frame, hw, Or.inl ?_⟩
    simp only [sent_append, sent_load_events]
    split <;> rfl
  · refine Or.inr ⟨frame, hw, Or.inr ⟨fps, ?_⟩⟩
    simp only [sent_append, sent_load_events, sent_publish_events]
    split <;> rfl

/-- C1: in a call of `handle_vsl`, whatever wait, trylock, load, run and extract
answer, the frame returned by `vsl_frame_wait` is released exactly once (lock
failure, load failure, run failure, extract failure and success alike), and no
release is made when wait returned no frame. -/
theorem handle_vsl_releases_once (cfg : Config) (s : FpsState) (o : Cycle)
    (h : o.defined s) :
    ∃ r, handle_vsl cfg s o = some r ∧ released r.trace = o.wait.toList := by
  rcases handle_vsl_paths cfg s o h with ⟨hw, hr⟩ | ⟨frame, hw, -, hr⟩ |
    ⟨frame, s1, fps, hw, -, -, ⟨-, hr⟩ | ⟨-, -, hr⟩ | ⟨-, -, -, hr⟩ | ⟨-, -, -, -, hr⟩⟩
  all_goals
    refine ⟨_, hr, ?_⟩
    simp only [hw, released_append, released_load_events, released_publish_events]
    rfl


/-- Witness of C1: the sample cycle. -/
theorem handle_vsl_releases_once_witness :
    ex_cycle.defined FpsState.init ∧
      ∃ r, handle_vsl ex_cfg FpsState.init ex_cycle = some r ∧
        released r.trace = ex_cycle.wait.toList :=
  ⟨by simp [Cycle.defined, ex_cycle, FpsState.init],
   handle_vsl_releases_once ex_cfg FpsState.init ex_cycle
     (by simp [Cycle.defined, ex_cycle, FpsState.init])⟩



/-- C2: with a non-empty capture topic, a call of `handle_vsl` that publishes a
result message has sent, on the same socket and before it, exactly one capture
message, which carries the serial of the frame and the timestamp of the result;
with an empty capture topic no capture message is sent. -/
theorem capture_before_result (cfg : Config) (s : FpsState) (o : Cycle) (r : Ret)
    (hr : handle_vsl cfg s o = some r) :
    (cfg.capture ≠ "" → ∀ m ∈ sent r.trace, m.isResult = true →
      ∃ frame res, o.wait = some frame ∧ m = { topic := cfg.topic, payload := .result res } ∧
        sent r.trace =
          [{ topic := cfg.capture,
             payload := .capture { timestamp := res.timestamp, serial := frame.serial } }, m]) ∧
    (cfg.capture = "" → ∀ m ∈ sent r.trace, m.isCapture = false) := by
  constructor
  · intro hc m hm hres
    have hlen := length_ne_zero_of_ne_empty cfg.capture hc
    rcases sent_handle_vsl cfg s o r hr with h0 | ⟨frame, hw, h1 | ⟨fps, h2⟩⟩
    · rw [h0] at hm; cases hm
    · rw [h1, if_pos hlen, List.mem_singleton] at hm
      subst hm
      cases hres
    · rw [h2, if_pos hlen] at hm ⊢
      rcases List.mem_cons.mp hm with hm | hm
      · subst hm; cases hres
      · have hm1 : m = result_message cfg frame fps o := List.mem_singleton.mp hm
        subst hm1
        exact ⟨frame, result_record cfg frame fps o, hw, rfl, rfl⟩
  · intro hc m hm
    have hlen : ¬ cfg.capture.length ≠ 0 := by rw [hc]; exact fun h => h length_empty
    rcases sent_handle_vsl cfg s o r hr with h0 | ⟨frame, hw, h1 | ⟨fps, h2⟩⟩
    · rw [h0] at hm; cases hm
    · rw [h1, if_neg hlen] at hm; cases hm
    · rw [h2, if_neg hlen, List.nil_append, List.mem_singleton] at hm
      subst hm
      rfl

/-- Witness of C2: the sample cycle publishes its capture event, then its result. -/
theorem capture_before_result_witness :
    handle_vsl ex_cfg FpsState.init ex_cycle = some ex_ret ∧ ex_cfg.capture ≠ "" ∧
    result_message ex_cfg ex_frame 33333 ex_cycle ∈ sent ex_ret.trace ∧
    ∃ frame res, ex_cycle.wait = some frame ∧
      result_message ex_cfg ex_frame 33333 ex_cycle
        = { topic := ex_cfg.topic, payload := .result res } ∧
      sent ex_ret.trace =
        [{ topic := ex_cfg.capture,
           payload := .capture { timestamp := res.timestamp, serial := frame.serial } },
         result_message ex_cfg ex_frame 33333 ex_cycle] :=
  ⟨by decide, by decide, by decide,
   (capture_before_result ex_cfg FpsState.init ex_cycle ex_ret (by decide)).1 (by decide)
     (result_message ex_cfg ex_frame 33333 ex_cycle) (by decide) rfl⟩

theorem main_step_returned (cfg : Config) (l : Loop) (code running : Int) (o : Cycle)
    (h : l.status = .returned code) : main_step cfg l running o = some l := by
  simp [main_step, h]

/-- After `main` has returned, the rest of a script changes nothing. -/
theorem main_loop_returned (cfg : Config) (l : Loop) (code : Int)
    (h : l.status = .returned code) :
    ∀ script : List (Int × Cycle), main_loop cfg l script = some l := by
  intro script
  induction script with
  | nil => rfl
  | cons x rest ih =>
    obtain ⟨running, o⟩ := x
    simp only [main_loop, main_step_returned cfg l code running o h]
    exact ih

/-- A test of the loop condition that reads a non-zero flag runs one cycle. -/
theorem main_step_cycle (cfg : Config) (l : Loop) (running : Int) (o : Cycle) (r : Ret)
    (hloop : l.status = .looping) (hrun : running ≠ 0)
    (hr : handle_vsl cfg l.fps_state o = some r) :
    main_step cfg l running o = some
      { status := if r.ret ≠ 0 then .returned EXIT_FAILURE else .looping
        fps_state := r.fps_state
        trace := l.trace ++ r.trace
        cycles := l.cycles + 1 } := by
  simp [main_step, hloop, hrun, hr]

/-- A test of the loop condition that reads the flag at zero leaves the loop. -/
theorem main_step_stop (cfg : Config) (l : Loop) (o : Cycle) (hloop : l.status = .looping) :
    main_step cfg l 0 o = some
      { l with status := .returned EXIT_SUCCESS, trace := l.trace ++ [.context_release] } := by
  simp [main_step, hloop]

/-- C3: when load, run or extract returns a non-zero error, `handle_vsl` returns
a non-zero value, sends nothing on the publish socket after the failing engine
call and publishes no result, and the loop of `main` runs no further cycle and
returns `EXIT_FAILURE`. -/
theorem engine_failure_stops (cfg : Config) (l : Loop) (running : Int) (o : Cycle)
    (frame : VSLFrame) (script : List (Int × Cycle))
    (hloop : l.status = .looping) (hrun : running ≠ 0)
    (hw : o.wait = some frame) (hl : o.trylock = 0)
    (hclock : o.now - l.fps_state.previous_time ≠ 0)
    (herr : o.load_err ≠ 0 ∨ o.run_err ≠ 0 ∨ o.boxes_err ≠ 0) :
    ∃ r, handle_vsl cfg l.fps_state o = some r ∧ r.ret ≠ 0 ∧
      (∃ pre post, r.trace = pre ++ failing_call frame o :: post ∧
        sent post = [] ∧ engine_calls post = []) ∧
      (∀ m ∈ sent r.trace, m.isResult = false) ∧
      ∃ l1, main_step cfg l running o = some l1 ∧ l1.status = .returned EXIT_FAILURE ∧
        l1.cycles = l.cycles + 1 ∧ l1.trace = l.trace ++ r.trace ∧
        main_loop cfg l1 script = some l1 := by
  obtain ⟨s1, fps, hu⟩ := update_fps_isSome l.fps_state o.now hclock
  have hcap : ∀ m ∈ (if cfg.capture.length ≠ 0 then [capture_message cfg frame] else []),
      m.isResult = false := by
    intro m hm
    split at hm
    · rw [List.mem_singleton.mp hm]; rfl
    · cases hm
  have key : ∀ r, handle_vsl cfg l.fps_state o = some r → r.ret = -1 →
      ∃ l1, main_step cfg l running o = some l1 ∧ l1.status = .returned EXIT_FAILURE ∧
        l1.cycles = l.cycles + 1 ∧ l1.trace = l.trace ++ r.trace ∧
        main_loop cfg l1 script = some l1 := by
    intro r hr hret
    refine ⟨_, main_step_cycle cfg l running o r hloop hrun hr, ?_, rfl, rfl, ?_⟩
    · simp [hret]
    · exact main_loop_returned cfg _ EXIT_FAILURE (by simp [hret]) script
  by_cases h1 : o.load_err = 0
  · by_cases h2 : o.run_err = 0
    · have h3 : o.boxes_err ≠ 0 := by
        rcases herr with h | h | h
        · exact absurd h1 h
        · exact absurd h2 h
        · exact h
      have hr := handle_vsl_boxes_failed cfg l.fps_state s1 o frame fps hw hl hu h1 h2 h3
      refine ⟨_, hr, by simp, ⟨load_events cfg frame ++ run_events ++
        [.vaal_clock_now, .vaal_clock_now], [.stderr .boxes], ?_, rfl, rfl⟩, ?_, key _ hr rfl⟩
      · simp [failing_call, h1, h2, boxes_events]
      · simp only [sent_append, sent_load_events]
        intro m hm
        simp only [run_events, boxes_events, sent, List.filterMap_cons, List.filterMap_nil,
          List.append_nil] at hm
        exact hcap m hm
    · have hr := handle_vsl_run_failed cfg l.fps_state s1 o frame fps hw hl hu h1 h2
      refine ⟨_, hr, by simp, ⟨load_events cfg frame ++
        [.vaal_clock_now, .vaal_clock_now], [.stderr .run], ?_, rfl, rfl⟩, ?_, key _ hr rfl⟩
      · simp [failing_call, h1, h2, run_events]
      · simp only [sent_append, sent_load_events]
        intro m hm
        simp only [run_events, sent, List.filterMap_cons, List.filterMap_nil,
          List.append_nil] at hm
        exact hcap m hm
  · have hr := handle_vsl_load_failed cfg l.fps_state s1 o frame fps hw hl hu h1
    refine ⟨_, hr, by simp, ⟨[.frame_wait, .frame_trylock frame, .system_clock_now,
        .frame_timestamp frame] ++ capture_events cfg frame ++
        [.vaal_clock_now, .frame_handle frame, .frame_fourcc frame, .frame_width frame,
         .frame_height frame],
      [.frame_unlock frame, .frame_release frame, .stderr .load], ?_, rfl, rfl⟩, ?_, key _ hr rfl⟩
    · simp [failing_call, h1, load_events]
    · simp only [sent_append, sent_load_events]
      intro m hm
      simp only [sent, List.filterMap_cons, List.filterMap_nil, List.append_nil] at hm
      exact hcap m hm


/-- Witness of C3: the model run fails in the first cycle. -/
theorem engine_failure_stops_witness :
    (Loop.init.status = .looping ∧ (1 : Int) ≠ 0 ∧ ex_run_failed.wait = some ex_frame ∧
      ex_run_failed.trylock = 0 ∧ ex_run_failed.run_err ≠ 0) ∧
    ∃ r, handle_vsl ex_cfg Loop.init.fps_state ex_run_failed = some r ∧ r.ret ≠ 0 ∧
      ∃ l1, main_step ex_cfg Loop.init 1 ex_run_failed = some l1 ∧
        l1.status = .returned EXIT_FAILURE ∧ main_loop ex_cfg l1 [(1, ex_cycle)] = some l1 :=
  ⟨⟨rfl, by decide, rfl, rfl, by decide⟩,
   (engine_failure_stops ex_cfg Loop.init 1 ex_run_failed ex_frame [(1, ex_cycle)] rfl
      (by decide) rfl rfl (by decide) (Or.inr (Or.inl (by decide)))).imp
     fun _ h => ⟨h.1, h.2.1, h.2.2.2.2.imp fun _ g => ⟨g.1, g.2.1, g.2.2.2.2⟩⟩⟩

/-- C4: when `vsl_frame_wait` returns no frame, `handle_vsl` returns 0 and has
published nothing, and the loop goes on to test its condition: reading the flag
at 0 it stops and `main` returns `EXIT_SUCCESS`, after which no script makes a
further call of `handle_vsl` or a further publish; reading it non-zero it runs
another cycle. -/
theorem no_frame_then_flag (cfg : Config) (l : Loop) (running next : Int) (o o2 : Cycle)
    (script : List (Int × Cycle))
    (hloop : l.status = .looping) (hrun : running ≠ 0) (hw : o.wait = none) :
    ∃ r l1, handle_vsl cfg l.fps_state o = some r ∧ r.ret = 0 ∧ sent r.trace = [] ∧
      main_step cfg l running o = some l1 ∧ l1.status = .looping ∧
      sent l1.trace = sent l.trace ∧
      (next = 0 → ∃ l2, main_step cfg l1 next o2 = some l2 ∧
        l2.status = .returned EXIT_SUCCESS ∧ l2.cycles = l1.cycles ∧
        sent l2.trace = sent l1.trace ∧ main_loop cfg l2 script = some l2) ∧
      (next ≠ 0 → ∀ r2, handle_vsl cfg l1.fps_state o2 = some r2 →
        ∃ l2, main_step cfg l1 next o2 = some l2 ∧ l2.cycles = l1.cycles + 1 ∧
          l2.trace = l1.trace ++ r2.trace) := by
  have hr := handle_vsl_no_frame cfg l.fps_state o hw
  refine ⟨_, _, hr, rfl, rfl, main_step_cycle cfg l running o _ hloop hrun hr, by simp, ?_, ?_, ?_⟩
  · simp only [sent_append]
    exact List.append_nil _
  · intro h0
    subst h0
    refine ⟨_, main_step_stop cfg _ o2 (by simp), rfl, rfl, ?_, ?_⟩
    · simp only [sent_append]
      exact List.append_nil _
    · exact main_loop_returned cfg _ EXIT_SUCCESS rfl script
  · intro hn r2 hr2
    exact ⟨_, main_step_cycle cfg _ next o2 r2 (by simp) hn hr2, rfl, rfl⟩

/-- Witness of C4: an empty poll, then the flag read at 0. -/
theorem no_frame_then_flag_witness :
    (Loop.init.status = .looping ∧ (1 : Int) ≠ 0 ∧ ex_no_frame.wait = none) ∧
    ∃ r l1, handle_vsl ex_cfg Loop.init.fps_state ex_no_frame = some r ∧ r.ret = 0 ∧
      sent r.trace = [] ∧ main_step ex_cfg Loop.init 1 ex_no_frame = some l1 ∧
      l1.status = .looping ∧
      ∃ l2, main_step ex_cfg l1 0 ex_cycle = some l2 ∧ l2.status = .returned EXIT_SUCCESS ∧
        main_loop ex_cfg l2 [(1, ex_cycle)] = some l2 :=
  ⟨⟨rfl, by decide, rfl⟩,
   (no_frame_then_flag ex_cfg Loop.init 1 0 ex_no_frame ex_cycle [(1, ex_cycle)] rfl
      (by decide) rfl).imp
     fun _ h => h.imp fun _ g =>
       ⟨g.1, g.2.1, g.2.2.1, g.2.2.2.1, g.2.2.2.2.1,
        (g.2.2.2.2.2.2.1 rfl).imp fun _ k => ⟨k.1, k.2.1, k.2.2.2.2⟩⟩⟩

/-- C5: when a frame is obtained and `vsl_frame_trylock` fails, `handle_vsl`
releases the frame, publishes neither capture nor result, calls none of load,
run and extract, and returns 0, so that the loop of `main` goes on to its next
test instead of returning. -/
theorem lock_failure_skips (cfg : Config) (l : Loop) (running : Int) (o : Cycle)
    (frame : VSLFrame) (hloop : l.status = .looping) (hrun : running ≠ 0)
    (hw : o.wait = some frame) (hl : o.trylock ≠ 0) :
    ∃ r l1, handle_vsl cfg l.fps_state o = some r ∧ r.ret = 0 ∧ released r.trace = [frame] ∧
      sent r.trace = [] ∧ engine_calls r.trace = [] ∧
      main_step cfg l running o = some l1 ∧ l1.status = .looping ∧
      l1.cycles = l.cycles + 1 ∧ l1.fps_state = l.fps_state ∧
      ∀ next o2 r2, next ≠ 0 → handle_vsl cfg l1.fps_state o2 = some r2 →
        ∃ l2, main_step cfg l1 next o2 = some l2 ∧ l2.cycles = l1.cycles + 1 ∧
          l2.trace = l1.trace ++ r2.trace := by
  have hr := handle_vsl_lock_failed cfg l.fps_state o frame hw hl
  refine ⟨_, _, hr, rfl, rfl, rfl, rfl, main_step_cycle cfg l running o _ hloop hrun hr,
    by simp, rfl, rfl, ?_⟩
  intro next o2 r2 hn hr2
  exact ⟨_, main_step_cycle cfg _ next o2 r2 (by simp) hn hr2, rfl, rfl⟩

/-- Witness of C5: the lock fails in the first cycle. -/
theorem lock_failure_skips_witness :
    (Loop.init.status = .looping ∧ (1 : Int) ≠ 0 ∧ ex_lock_failed.wait = some ex_frame ∧
      ex_lock_failed.trylock ≠ 0) ∧
    ∃ r l1, handle_vsl ex_cfg Loop.init.fps_state ex_lock_failed = some r ∧ r.ret = 0 ∧
      released r.trace = [ex_frame] ∧ sent r.trace = [] ∧ engine_calls r.trace = [] ∧
      main_step ex_cfg Loop.init 1 ex_lock_failed = some l1 ∧ l1.status = .looping :=
  ⟨⟨rfl, by decide, rfl, by decide⟩,
   (lock_failure_skips ex_cfg Loop.init 1 ex_lock_failed ex_frame rfl (by decide) rfl
      (by decide)).imp
     fun _ h => h.imp fun _ g =>
       ⟨g.1, g.2.1, g.2.2.1, g.2.2.2.1, g.2.2.2.2.1, g.2.2.2.2.2.1, g.2.2.2.2.2.2.1⟩⟩


/-- C7: on the success path, with the count `n_boxes` reported by extract within
the box vector, the published result has one object per engine box in engine
order; each object copies score, xmin, xmax, ymin and ymax of its box and has as
label the string `vaal_label` resolves for the label index of the box, or the
empty string when it resolves none; the timestamp of the result is that of the
frame. -/
theorem result_objects_follow_boxes (cfg : Config) (s : FpsState) (o : Cycle)
    (frame : VSLFrame) (hw : o.wait = some frame) (hl : o.trylock = 0)
    (hclock : o.now - s.previous_time ≠ 0)
    (h1 : o.load_err = 0) (h2 : o.run_err = 0) (h3 : o.boxes_err = 0)
    (hn : o.n_boxes ≤ o.boxes.length) :
    ∃ r res, handle_vsl cfg s o = some r ∧ r.ret = 0 ∧
      (sent r.trace).filter Message.isResult = [{ topic := cfg.topic, payload := .result res }] ∧
      res.timestamp = frame.timestamp ∧
      res.objects.length = o.n_boxes ∧
      ∀ i, i < o.n_boxes → ∃ b obj, o.boxes[i]? = some b ∧ res.objects[i]? = some obj ∧
        obj.score = b.score ∧ obj.bbox.xmin = b.xmin ∧ obj.bbox.xmax = b.xmax ∧
        obj.bbox.ymin = b.ymin ∧ obj.bbox.ymax = b.ymax ∧
        obj.label = (cfg.vaal_label b.label).getD "" := by
  obtain ⟨s1, fps, hu⟩ := update_fps_isSome s o.now hclock
  have hr := handle_vsl_published cfg s s1 o frame fps hw hl hu h1 h2 h3 hn
  refine ⟨_, result_record cfg frame fps o, hr, rfl, ?_, rfl, ?_, ?_⟩
  · simp only [sent_append, sent_load_events, sent_publish_events]
    split <;> rfl
  · simp [result_record, hn]
  · intro i hi
    have hlt : i < o.boxes.length := by omega
    refine ⟨o.boxes[i], make_object cfg o.boxes[i], List.getElem?_eq_getElem hlt, ?_,
      rfl, rfl, rfl, rfl, rfl, ?_⟩
    · simp [result_record, List.getElem?_take, hi, List.getElem?_eq_getElem hlt]
    · unfold make_object
      cases cfg.vaal_label o.boxes[i].label <;> rfl

/-- Witness of C7: one box whose label index resolves to nothing. -/
theorem result_objects_follow_boxes_witness :
    (ex_cycle_unnamed.wait = some ex_frame ∧ ex_cycle_unnamed.n_boxes
        ≤ ex_cycle_unnamed.boxes.length) ∧
    ∃ r res, handle_vsl ex_cfg FpsState.init ex_cycle_unnamed = some r ∧ r.ret = 0 ∧
      (sent r.trace).filter Message.isResult
        = [{ topic := ex_cfg.topic, payload := .result res }] ∧
      res.timestamp = ex_frame.timestamp ∧ res.objects.length = ex_cycle_unnamed.n_boxes :=
  ⟨⟨rfl, by decide⟩,
   (result_objects_follow_boxes ex_cfg FpsState.init ex_cycle_unnamed ex_frame rfl rfl
      (by decide) rfl rfl rfl (by decide)).imp
     fun _ h => h.imp fun _ g => ⟨g.1, g.2.1, g.2.2.1, g.2.2.2.1, g.2.2.2.2.1⟩⟩

/-- C6, evaluation at the failing input: the engine reports two boxes, the
background entry in slot 0 and a person in slot 1; the published `objects` list
has two entries and starts with the entry of slot 0. -/
theorem background_slot_published :
    (handle_vsl ex_cfg FpsState.init ex_cycle).map (fun r => published_objects r.trace)
      = some [[make_object ex_cfg ex_background, make_object ex_cfg ex_person]] := by
  decide

/-! ## The rate estimator -/

theorem to_int_of_range (x : Int) (h1 : -2147483648 ≤ x) (h2 : x < 2147483648) :
    to_int x = x := by
  unfold to_int
  omega

theorem to_int_range (x : Int) : -2147483648 ≤ to_int x ∧ to_int x < 2147483648 := by
  unfold to_int
  omega

theorem to_int_add (a b : Int) : to_int (to_int a + b) = to_int (a + b) := by
  unfold to_int
  omega

theorem sum_history_take (h : List Int) :
    ∀ n, n ≤ h.length →
      (List.range n).foldl (fun fps i => to_int (fps + h.getD i 0)) 0 = to_int (h.take n).sum := by
  intro n
  induction n with
  | zero => intro _; rfl
  | succ k ih =>
    intro hk
    have hlt : k < h.length := by omega
    rw [List.range_succ, List.foldl_append, ih (by omega)]
    simp only [List.foldl_cons, List.foldl_nil]
    rw [to_int_add, List.sum_take_succ h k hlt, List.getD_eq_getElem h 0 hlt]

theorem sum_history_eq (h : List Int) (hlen : h.length = 30) :
    sum_history h = to_int h.sum := by
  unfold sum_history
  rw [sum_history_take h 30 (by omega), ← hlen, List.take_length]

theorem sample_range (e : Int) :
    -1000000000 ≤ NSEC_PER_SEC.tdiv e ∧ NSEC_PER_SEC.tdiv e ≤ 1000000000 := by
  have h := Int.natAbs_tdiv NSEC_PER_SEC e
  have h2 : (NSEC_PER_SEC.natAbs).div e.natAbs ≤ 1000000000 := Nat.div_le_self _ _
  omega

theorem tdiv_30_range (x : Int) (h1 : -2147483648 ≤ x) (h2 : x < 2147483648) :
    -2147483648 ≤ x.tdiv 30 ∧ x.tdiv 30 < 2147483648 := by
  have h3 : (x.tdiv 30).natAbs = x.natAbs / 30 := Int.natAbs_tdiv x 30
  omega

theorem update_fps_eq (s : FpsState) (t : Int) (he : t - s.previous_time ≠ 0)
    (hlen : s.fps_history.length = 30) :
    update_fps s t = some
      ({ previous_time := t
         fps_history := s.fps_history.set s.fps_index (NSEC_PER_SEC.tdiv (t - s.previous_time))
         fps_index := if s.fps_index ≥ 29 then 0 else s.fps_index + 1 },
       (to_int (s.fps_history.set s.fps_index
          (NSEC_PER_SEC.tdiv (t - s.previous_time))).sum).tdiv 30) := by
  have hs := sample_range (t - s.previous_time)
  have hsample : to_int (NSEC_PER_SEC.tdiv (t - s.previous_time))
      = NSEC_PER_SEC.tdiv (t - s.previous_time) := to_int_of_range _ (by omega) (by omega)
  have hr := to_int_range (s.fps_history.set s.fps_index
    (NSEC_PER_SEC.tdiv (t - s.previous_time))).sum
  have hq := tdiv_30_range _ hr.1 hr.2
  simp only [update_fps, he, if_false, hsample]
  rw [sum_history_eq _ (by rw [List.length_set]; exact hlen), to_int_of_range _ hq.1 hq.2]

theorem fps_calls_snoc (ts : List Int) (t : Int) :
    ∀ s, fps_calls s (ts ++ [t]) =
      match fps_calls s ts with
      | none => none
      | some (s1, rs) =>
        match update_fps s1 t with
        | none => none
        | some (s2, r) => some (s2, rs ++ [r]) := by
  induction ts with
  | nil =>
    intro s
    simp only [List.nil_append, fps_calls]
  | cons a ts ih =>
    intro s
    rw [List.cons_append]
    simp only [fps_calls]
    cases update_fps s a with
    | none => rfl
    | some p =>
      obtain ⟨s1, r⟩ := p
      simp only [ih s1]
      cases fps_calls s1 ts with
      | none => rfl
      | some q =>
        obtain ⟨s2, rs⟩ := q
        simp only
        cases update_fps s2 t with
        | none => rfl
        | some p2 => rfl

theorem samples_from_snoc (ts : List Int) (t : Int) :
    ∀ prev, samples_from prev (ts ++ [t])
      = samples_from prev ts ++ [NSEC_PER_SEC.tdiv (t - ts.getLastD prev)] := by
  induction ts with
  | nil => intro prev; rfl
  | cons a ts ih =>
    intro prev
    rw [List.cons_append]
    simp only [samples_from, ih a, List.getLastD_cons, List.cons_append]

theorem intervals_nonzero_snoc (ts : List Int) (t : Int) :
    ∀ prev, intervals_nonzero prev (ts ++ [t])
      ↔ intervals_nonzero prev ts ∧ t - ts.getLastD prev ≠ 0 := by
  induction ts with
  | nil => intro prev; simp [intervals_nonzero]
  | cons a ts ih =>
    intro prev
    rw [List.cons_append]
    simp only [intervals_nonzero, ih a, List.getLastD_cons, and_assoc]

theorem samples_from_length (ts : List Int) :
    ∀ prev, (samples_from prev ts).length = ts.length := by
  induction ts with
  | nil => intro prev; rfl
  | cons a ts ih => intro prev; simp [samples_from, ih a]

theorem history_of_length (l : List Int) : (history_of l).length = 30 := by
  simp [history_of]

theorem history_of_snoc (l : List Int) (x : Int) :
    history_of (l ++ [x]) = (history_of l).set (l.length % 30) x := by
  apply List.ext_getElem
  · simp [history_of]
  · intro j h1 h2
    have hj : j < 30 := by simpa [history_of] using h1
    rw [List.getElem_set]
    simp only [history_of, List.getElem_map, List.getElem_range, List.length_append,
      List.length_singleton]
    by_cases hjk : l.length % 30 = j
    · rw [if_pos hjk, if_pos (by omega)]
      have : l.length + 1 - 1 - (l.length + 1 - 1 - j) % 30 = l.length := by omega
      rw [this]
      simp
    · rw [if_neg hjk]
      by_cases hlt : j < l.length
      · rw [if_pos (by omega), if_pos hlt]
        have : l.length + 1 - 1 - (l.length + 1 - 1 - j) % 30
            = l.length - 1 - (l.length - 1 - j) % 30 := by omega
        rw [this]
        have hi : l.length - 1 - (l.length - 1 - j) % 30 < l.length := by omega
        rw [List.getD_eq_getElem _ _ (by simp; omega), List.getD_eq_getElem _ _ hi,
          List.getElem_append_left hi]
      · rw [if_neg hlt, if_neg (by omega)]

theorem state_after_nil : state_after [] = FpsState.init := by
  decide

/-- One more call from the statics reached after the calls at `ts`. -/
theorem update_fps_state_after (ts : List Int) (t : Int) (he : t - ts.getLastD 0 ≠ 0) :
    update_fps (state_after ts) t = some
      (state_after (ts ++ [t]),
       (to_int (history_of (samples_from 0 (ts ++ [t]))).sum).tdiv 30) := by
  have hu := update_fps_eq (state_after ts) t he (history_of_length _)
  have hhist : history_of (samples_from 0 (ts ++ [t]))
      = (state_after ts).fps_history.set (state_after ts).fps_index
          (NSEC_PER_SEC.tdiv (t - (state_after ts).previous_time)) := by
    rw [samples_from_snoc, history_of_snoc, samples_from_length]
    rfl
  have hst : state_after (ts ++ [t]) =
      { previous_time := t
        fps_history := (state_after ts).fps_history.set (state_after ts).fps_index
          (NSEC_PER_SEC.tdiv (t - (state_after ts).previous_time))
        fps_index := if (state_after ts).fps_index ≥ 29 then 0
          else (state_after ts).fps_index + 1 } := by
    have hidx : (ts ++ [t]).length % 30
        = if (state_after ts).fps_index ≥ 29 then 0 else (state_after ts).fps_index + 1 := by
      simp only [state_after, List.length_append, List.length_singleton]
      split <;> omega
    have hlast : (ts ++ [t]).getLastD 0 = t := by simp
    show ({ previous_time := (ts ++ [t]).getLastD 0
            fps_history := history_of (samples_from 0 (ts ++ [t]))
            fps_index := (ts ++ [t]).length % 30 } : FpsState) = _
    rw [hlast, hhist, hidx]
  rw [hu, hst, hhist]

/-- The statics after a sequence of calls with non-zero intervals. -/
theorem fps_calls_state (ts : List Int) (h : intervals_nonzero 0 ts) :
    ∃ rs, fps_calls FpsState.init ts = some (state_after ts, rs) := by
  induction ts using List.reverseRecOn with
  | nil => exact ⟨[], by rw [state_after_nil]; rfl⟩
  | append_singleton ts t ih =>
    obtain ⟨h1, h2⟩ := (intervals_nonzero_snoc ts t 0).mp h
    obtain ⟨rs, hrs⟩ := ih h1
    refine ⟨rs ++ [(to_int (history_of (samples_from 0 (ts ++ [t]))).sum).tdiv 30], ?_⟩
    rw [fps_calls_snoc, hrs]
    simp only [update_fps_state_after ts t h2]

theorem sum_set_eq (l : List Int) (n : Nat) (h : n < l.length) (a : Int) :
    (l.set n a).sum = l.sum - l[n] + a := by
  have h1 := List.sum_set l n a
  have h2 := List.sum_take_add_sum_drop l n
  rw [List.drop_eq_getElem_cons h, List.sum_cons] at h2
  rw [if_pos h] at h1
  omega

theorem history_of_slot_old (l : List Int) (hk : 30 ≤ l.length)
    (hb : l.length % 30 < (history_of l).length) (hi : l.length - 30 < l.length) :
    (history_of l)[l.length % 30] = l[l.length - 30] := by
  simp only [history_of, List.getElem_map, List.getElem_range]
  rw [if_pos (by omega)]
  have hidx : l.length - 1 - (l.length - 1 - l.length % 30) % 30 = l.length - 30 := by omega
  rw [hidx, List.getD_eq_getElem _ _ hi]

theorem history_of_slot_new (l : List Int) (hk : l.length < 30)
    (hb : l.length % 30 < (history_of l).length) :
    (history_of l)[l.length % 30] = 0 := by
  simp only [history_of, List.getElem_map, List.getElem_range]
  rw [if_neg (by omega)]

/-- The thirty slots add up to the sum of the last thirty samples (of all of
them while there are fewer). -/
theorem history_of_sum (l : List Int) :
    (history_of l).sum = (l.drop (l.length - 30)).sum := by
  induction l using List.reverseRecOn with
  | nil => rfl
  | append_singleton l x ih =>
    have hb : l.length % 30 < (history_of l).length := by rw [history_of_length]; omega
    rw [history_of_snoc, sum_set_eq _ _ hb, ih]
    simp only [List.length_append, List.length_singleton]
    by_cases hk : 30 ≤ l.length
    · have hi : l.length - 30 < l.length := by omega
      have hd : l.drop (l.length - 30) = l[l.length - 30] :: l.drop (l.length - 30 + 1) :=
        List.drop_eq_getElem_cons hi
      have he : l.length + 1 - 30 = l.length - 30 + 1 := by omega
      rw [history_of_slot_old l hk hb hi, hd, he, List.drop_append_of_le_length (by omega)]
      simp only [List.sum_cons, List.sum_append, List.sum_nil]
      omega
    · have he : l.length + 1 - 30 = 0 := by omega
      have he2 : l.length - 30 = 0 := by omega
      rw [history_of_slot_new l (by omega) hb, he, he2]
      simp only [List.drop_zero, List.sum_append, List.sum_cons, List.sum_nil]
      omega

theorem history_of_unwritten (l : List Int) (j : Nat) (h1 : l.length ≤ j) :
    (history_of l).getD j 0 = 0 := by
  by_cases hj : j < 30
  · rw [List.getD_eq_getElem _ _ (by rw [history_of_length]; exact hj)]
    simp only [history_of, List.getElem_map, List.getElem_range]
    rw [if_neg (by omega)]
  · rw [List.getD_eq_default _ _ (by rw [history_of_length]; omega)]

/-- The value returned by the last of a sequence of calls with non-zero
intervals. -/
theorem last_fps_snoc (ts : List Int) (t : Int) (h : intervals_nonzero 0 (ts ++ [t])) :
    last_fps (ts ++ [t]) = some
      ((to_int (last_samples 30 (samples_from 0 (ts ++ [t]))).sum).tdiv 30) := by
  obtain ⟨h1, h2⟩ := (intervals_nonzero_snoc ts t 0).mp h
  obtain ⟨rs, hrs⟩ := fps_calls_state ts h1
  unfold last_fps
  rw [fps_calls_snoc, hrs]
  simp only [update_fps_state_after ts t h2, List.getLast?_append, List.getLast?_singleton,
    history_of_sum, last_samples]
  rfl

/-- C10, as amended: the `k`-th call of `update_fps` from the initial statics,
made at `t` after `k - 1` calls at `ts`, all elapsed intervals being non-zero,
stores the sample `1e9 / elapsed` (truncating) in slot `(k - 1) mod 30`, leaves
the other slots as they were, slots not yet written holding 0; the thirty slots
add up to the sum of the last `min k 30` samples; and, when that sum lies in
the range of a 32-bit `int`, the call returns its truncating quotient by 30. -/
theorem update_fps_kth_call (ts : List Int) (t : Int)
    (h : intervals_nonzero 0 (ts ++ [t])) :
    ∃ s rs s1 r, fps_calls FpsState.init ts = some (s, rs) ∧ update_fps s t = some (s1, r) ∧
      s.fps_history.length = 30 ∧
      s1.fps_history = s.fps_history.set (ts.length % 30)
        (NSEC_PER_SEC.tdiv (t - ts.getLastD 0)) ∧
      (∀ j, ts.length < j → s1.fps_history.getD j 0 = 0) ∧
      s1.fps_history.sum
        = (last_samples (min (ts.length + 1) 30) (samples_from 0 (ts ++ [t]))).sum ∧
      (-2147483648 ≤ s1.fps_history.sum → s1.fps_history.sum < 2147483648 →
        r = s1.fps_history.sum.tdiv 30) := by
  obtain ⟨h1, h2⟩ := (intervals_nonzero_snoc ts t 0).mp h
  obtain ⟨rs, hrs⟩ := fps_calls_state ts h1
  refine ⟨state_after ts, rs, state_after (ts ++ [t]), _, hrs, update_fps_state_after ts t h2,
    history_of_length _, ?_, ?_, ?_, ?_⟩
  · show history_of (samples_from 0 (ts ++ [t])) = _
    rw [samples_from_snoc, history_of_snoc, samples_from_length]
    rfl
  · intro j hj
    exact history_of_unwritten _ j (by rw [samples_from_length]; simp; omega)
  · show (history_of (samples_from 0 (ts ++ [t]))).sum = _
    rw [history_of_sum, last_samples]
    congr 2
    rw [samples_from_length]
    simp only [List.length_append, List.length_singleton]
    omega
  · intro hlo hhi
    have hsum : (state_after (ts ++ [t])).fps_history.sum
        = (history_of (samples_from 0 (ts ++ [t]))).sum := rfl
    rw [hsum] at hlo hhi ⊢
    rw [to_int_of_range _ hlo hhi]

/-- Witness of C10: the third of three calls one second apart. -/
theorem update_fps_kth_call_witness :
    intervals_nonzero 0 ([1000000000, 2000000000] ++ [3000000000]) ∧
    ∃ s rs s1 r, fps_calls FpsState.init [1000000000, 2000000000] = some (s, rs) ∧
      update_fps s 3000000000 = some (s1, r) ∧ s1.fps_history.sum
        = (last_samples (min 3 30) (samples_from 0 [1000000000, 2000000000, 3000000000])).sum :=
  ⟨by simp [intervals_nonzero],
   (update_fps_kth_call [1000000000, 2000000000] 3000000000
      (by simp [intervals_nonzero])).imp
     fun _ h => h.imp fun _ g => g.imp fun _ k => k.imp fun _ q =>
       ⟨q.1, q.2.1, q.2.2.2.2.2.1⟩⟩

/-- Counterexample to C10 as stated: three calls 1 ns apart store the sample
1000000000 three times; the slots add up to 3000000000, whose quotient by 30 is
100000000, but the sum formed in `int` wraps and the third call returns
-43165576. -/
theorem update_fps_kth_call_overflow :
    intervals_nonzero 0 [1, 2, 3] ∧
    (fps_calls FpsState.init [1, 2, 3]).map (fun p => (p.1.fps_history.sum, p.2))
      = some (3000000000, [33333333, 66666666, -43165576]) ∧
    (3000000000 : Int).tdiv 30 = 100000000 :=
  ⟨by simp [intervals_nonzero], by decide, by decide⟩

theorem at_30fps_succ (start : Int) (n : Nat) :
    at_30fps start (n + 1) = start :: at_30fps (start + 33333333) n := by
  simp only [at_30fps, List.range_succ_eq_map, List.map_cons, List.map_map]
  congr 1
  · simp
  · apply List.map_congr_left
    intro i _
    simp only [Function.comp_apply, Nat.succ_eq_add_one, Nat.cast_add, Nat.cast_one]
    ring

theorem at_30fps_snoc (start : Int) (n : Nat) :
    at_30fps start (n + 1) = at_30fps start n ++ [start + 33333333 * (n : Int)] := by
  simp [at_30fps, List.range_succ]

theorem intervals_nonzero_at_30fps (n : Nat) :
    ∀ prev start : Int, start - prev ≠ 0 → intervals_nonzero prev (at_30fps start n) := by
  induction n with
  | zero => intro prev start _; trivial
  | succ k ih =>
    intro prev start h
    rw [at_30fps_succ]
    exact ⟨h, ih start (start + 33333333) (by omega)⟩

theorem samples_from_at_30fps (n : Nat) :
    ∀ start : Int, samples_from start (at_30fps (start + 33333333) n) = List.replicate n 30 := by
  induction n with
  | zero => intro start; rfl
  | succ k ih =>
    intro start
    rw [at_30fps_succ, samples_from, ih, List.replicate_succ]
    have he : start + 33333333 - start = 33333333 := by omega
    rw [he]
    rfl

theorem first_sample_small (start : Int) (h : 11111112 ≤ start) :
    0 ≤ NSEC_PER_SEC.tdiv start ∧ NSEC_PER_SEC.tdiv start ≤ 89 := by
  have h0 : (0 : Int) ≤ NSEC_PER_SEC := by decide
  rw [Int.tdiv_eq_ediv h0 (by omega)]
  have hN : NSEC_PER_SEC = 1000000000 := by decide
  constructor
  · exact Int.ediv_nonneg h0 (by omega)
  · have : NSEC_PER_SEC / start < 90 := Int.ediv_lt_of_lt_mul (by omega) (by omega)
    omega

/-- C9, as amended: from the initial statics, with calls at exactly 30 fps from
a positive start time on, the `n`-th call returns a value within 1 of 30 for
every `n ≥ 31`, and for `n = 30` when the start time is at least 11,111,112 ns
(so that the first sample, measured from time 0, is at most 89). -/
theorem fps_at_30fps (start : Int) (n : Nat) (hstart : 0 < start) (hn : 30 ≤ n)
    (h : 31 ≤ n ∨ 11111112 ≤ start) :
    ∃ r, last_fps (at_30fps start n) = some r ∧ 29 ≤ r ∧ r ≤ 31 := by
  obtain ⟨k, rfl⟩ : ∃ k, n = k + 1 := ⟨n - 1, by omega⟩
  have hnz : intervals_nonzero 0 (at_30fps start (k + 1)) :=
    intervals_nonzero_at_30fps (k + 1) 0 start (by omega)
  have hlast := last_fps_snoc (at_30fps start k) (start + 33333333 * (k : Int))
    (by rw [← at_30fps_snoc]; exact hnz)
  rw [← at_30fps_snoc] at hlast
  have hs : samples_from 0 (at_30fps start (k + 1))
      = NSEC_PER_SEC.tdiv start :: List.replicate k 30 := by
    rw [at_30fps_succ, samples_from, samples_from_at_30fps, sub_zero]
  rw [hs] at hlast
  refine ⟨_, hlast, ?_⟩
  by_cases h31 : 31 ≤ k + 1
  · have hd : last_samples 30 (NSEC_PER_SEC.tdiv start :: List.replicate k 30)
        = List.replicate 30 30 := by
      obtain ⟨m, rfl⟩ : ∃ m, k = m + 30 := ⟨k - 30, by omega⟩
      simp [last_samples, List.drop_replicate]
    rw [hd]
    decide
  · have hk : k = 29 := by omega
    subst hk
    have hsm := first_sample_small start (by omega)
    have hd : (last_samples 30 (NSEC_PER_SEC.tdiv start :: List.replicate 29 30)).sum
        = NSEC_PER_SEC.tdiv start + 870 := by
      simp [last_samples]
    rw [hd, to_int_of_range _ (by omega) (by omega),
      Int.tdiv_eq_ediv (by omega) (by omega)]
    omega

/-- Witness of C9: forty calls from the start time 1 ns. -/
theorem fps_at_30fps_witness :
    ((0 : Int) < 1 ∧ 30 ≤ 40) ∧ ∃ r, last_fps (at_30fps 1 40) = some r ∧ 29 ≤ r ∧ r ≤ 31 :=
  ⟨by decide, fps_at_30fps 1 40 (by decide) (by decide) (Or.inl (by decide))⟩

/-- Counterexample to C9 as stated: with the start time 1 ns the first sample is
1000000000 and still lies in the history at the 30th call, which returns
33333362. -/
theorem fps_at_30fps_thirtieth_call :
    (0 : Int) < 1 ∧ last_fps (at_30fps 1 30) = some 33333362 ∧
      ¬ (29 ≤ (33333362 : Int) ∧ (33333362 : Int) ≤ 31) :=
  ⟨by decide, by decide, by decide⟩

/-! ## Order of the calls on the frame -/

theorem frame_calls_append (a b : List Event) :
    frame_calls (a ++ b) = frame_calls a ++ frame_calls b := by
  simp [frame_calls, List.filter_append]

theorem frame_calls_verbose_print (cfg : Config) (m : Message) :
    frame_calls (verbose_print cfg m) = [] := by
  unfold verbose_print; split <;> rfl

theorem frame_calls_labels (l : List VAALBox) :
    frame_calls (l.map (fun b => Event.vaal_label b.label)) = [] := by
  induction l with
  | nil => rfl
  | cons b l ih => simp [frame_calls]

theorem frame_calls_capture_events (cfg : Config) (frame : VSLFrame) :
    frame_calls (capture_events cfg frame)
      = if cfg.capture.length ≠ 0 then [.frame_serial frame] else [] := by
  unfold capture_events
  split
  · simp only [frame_calls_append, frame_calls_verbose_print]; rfl
  · rfl

theorem frame_calls_load_events (cfg : Config) (frame : VSLFrame) :
    frame_calls (load_events cfg frame)
      = [.frame_trylock frame, .frame_timestamp frame]
        ++ (if cfg.capture.length ≠ 0 then [.frame_serial frame] else [])
        ++ [.frame_handle frame, .frame_fourcc frame, .frame_width frame, .frame_height frame,
            .load_frame_dmabuf frame.handle frame.fourcc frame.width frame.height,
            .frame_unlock frame, .frame_release frame] := by
  simp only [load_events, frame_calls_append, frame_calls_capture_events]
  rfl

theorem frame_calls_publish_events (cfg : Config) (frame : VSLFrame) (fps : Int) (o : Cycle) :
    frame_calls (publish_events cfg frame fps o) = [] := by
  simp only [publish_events, frame_calls_append, frame_calls_verbose_print, frame_calls_labels]
  rfl

/-- C13: in a call of `handle_vsl` in which trylock succeeds, the calls on the
frame are, in this order, trylock, the timestamp read (and the serial read when
a capture topic is set), the reads of handle, fourcc, width and height handed to
load, load, unlock, release: unlock occurs once, after load and before release,
and nothing is applied to the frame after release, whether load fails or not. -/
theorem frame_calls_in_order (cfg : Config) (s : FpsState) (o : Cycle) (frame : VSLFrame)
    (r : Ret) (hw : o.wait = some frame) (hl : o.trylock = 0)
    (hr : handle_vsl cfg s o = some r) :
    frame_calls r.trace
      = [.frame_trylock frame, .frame_timestamp frame]
        ++ (if cfg.capture.length ≠ 0 then [.frame_serial frame] else [])
        ++ [.frame_handle frame, .frame_fourcc frame, .frame_width frame, .frame_height frame,
            .load_frame_dmabuf frame.handle frame.fourcc frame.width frame.height,
            .frame_unlock frame, .frame_release frame] := by
  rcases handle_vsl_paths cfg s o (handle_vsl_defined cfg s o r hr) with
    ⟨hw0, -⟩ | ⟨f, -, hl0, -⟩ |
    ⟨f, s1, fps, hwf, -, -, ⟨-, hp⟩ | ⟨-, -, hp⟩ | ⟨-, -, -, hp⟩ | ⟨-, -, -, -, hp⟩⟩
  · rw [hw] at hw0; cases hw0
  · exact absurd hl hl0
  all_goals
    rw [hw] at hwf
    cases Option.some.inj hwf
    rw [hp] at hr
    cases Option.some.inj hr
    simp only [frame_calls_append, frame_calls_load_events, frame_calls_publish_events]
    split <;> rfl

/-- Witness of C13: the sample cycle. -/
theorem frame_calls_in_order_witness :
    (ex_cycle.wait = some ex_frame ∧ ex_cycle.trylock = 0 ∧
      handle_vsl ex_cfg FpsState.init ex_cycle = some ex_ret) ∧
    frame_calls ex_ret.trace
      = [.frame_trylock ex_frame, .frame_timestamp ex_frame]
        ++ (if ex_cfg.capture.length ≠ 0 then [.frame_serial ex_frame] else [])
        ++ [.frame_handle ex_frame, .frame_fourcc ex_frame, .frame_width ex_frame,
            .frame_height ex_frame,
            .load_frame_dmabuf ex_frame.handle ex_frame.fourcc ex_frame.width ex_frame.height,
            .frame_unlock ex_frame, .frame_release ex_frame] :=
  ⟨⟨rfl, rfl, by decide⟩,
   frame_calls_in_order ex_cfg FpsState.init ex_cycle ex_frame ex_ret rfl rfl (by decide)⟩

/-! ## Capture events of cycles that fail -/

theorem load_events_capture (cfg : Config) (frame : VSLFrame) (h : cfg.capture.length ≠ 0) :
    load_events cfg frame
      = before_capture cfg frame ++ .send (capture_message cfg frame) :: after_capture frame := by
  simp [load_events, capture_events, h, before_capture, after_capture]

theorem engine_calls_before_capture (cfg : Config) (frame : VSLFrame) :
    engine_calls (before_capture cfg frame) = [] := by
  simp only [before_capture, engine_calls_append, engine_calls_verbose_print]; rfl

theorem sent_before_capture (cfg : Config) (frame : VSLFrame) :
    sent (before_capture cfg frame) = [] := by
  simp only [before_capture, sent_append, sent_verbose_print]; rfl

theorem head_engine_calls_after_capture (frame : VSLFrame) (rest : List Event) :
    (engine_calls (after_capture frame ++ rest)).head? = some
      (.load_frame_dmabuf frame.handle frame.fourcc frame.width frame.height) := by
  rw [engine_calls_append]; rfl

/-- C14: with a non-empty capture topic, a cycle in which the frame is obtained
and locked sends the capture event before any engine call, the first engine call
after it being load, whatever load, run and extract return; when one of them
fails the capture event is the only message of the cycle, and the loop of `main`
returns, so that no result for that frame is published then or later. -/
theorem capture_without_result (cfg : Config) (l : Loop) (running : Int) (o : Cycle)
    (frame : VSLFrame) (script : List (Int × Cycle))
    (hloop : l.status = .looping) (hrun : running ≠ 0) (hc : cfg.capture ≠ "")
    (hw : o.wait = some frame) (hl : o.trylock = 0) (hd : o.defined l.fps_state) :
    ∃ r, handle_vsl cfg l.fps_state o = some r ∧
      (∃ pre post, r.trace = pre ++ .send (capture_message cfg frame) :: post ∧
        engine_calls pre = [] ∧ sent pre = [] ∧
        (engine_calls post).head? = some
          (.load_frame_dmabuf frame.handle frame.fourcc frame.width frame.height)) ∧
      ((o.load_err ≠ 0 ∨ o.run_err ≠ 0 ∨ o.boxes_err ≠ 0) →
        sent r.trace = [capture_message cfg frame] ∧
        ∃ l1, main_step cfg l running o = some l1 ∧ l1.status = .returned EXIT_FAILURE ∧
          sent l1.trace = sent l.trace ++ [capture_message cfg frame] ∧
          main_loop cfg l1 script = some l1) := by
  have hlen := length_ne_zero_of_ne_empty cfg.capture hc
  have hle := load_events_capture cfg frame hlen
  have hsl : sent (load_events cfg frame) = [capture_message cfg frame] := by
    rw [sent_load_events, if_pos hlen]
  have key : ∀ r, handle_vsl cfg l.fps_state o = some r → r.ret = -1 →
      sent r.trace = [capture_message cfg frame] →
      ∃ l1, main_step cfg l running o = some l1 ∧ l1.status = .returned EXIT_FAILURE ∧
        sent l1.trace = sent l.trace ++ [capture_message cfg frame] ∧
        main_loop cfg l1 script = some l1 := by
    intro r hr hret hsent
    refine ⟨_, main_step_cycle cfg l running o r hloop hrun hr, by simp [hret], ?_, ?_⟩
    · simp only [sent_append, hsent]
    · exact main_loop_returned cfg _ EXIT_FAILURE (by simp [hret]) script
  rcases handle_vsl_paths cfg l.fps_state o hd with
    ⟨hw0, -⟩ | ⟨f, -, hl0, -⟩ |
    ⟨f, s1, fps, hwf, -, -, ⟨h1, hp⟩ | ⟨h1, h2, hp⟩ | ⟨h1, h2, h3, hp⟩ | ⟨h1, h2, h3, -, hp⟩⟩
  · rw [hw] at hw0; cases hw0
  · exact absurd hl hl0
  all_goals
    rw [hw] at hwf
    cases Option.some.inj hwf
  · have hs : sent (load_events cfg frame ++ [.stderr .load]) = [capture_message cfg frame] := by
      rw [sent_append, hsl]; rfl
    refine ⟨_, hp, ⟨before_capture cfg frame, after_capture frame ++ [.stderr .load], ?_,
      engine_calls_before_capture cfg frame, sent_before_capture cfg frame,
      head_engine_calls_after_capture frame _⟩, ?_⟩
    · rw [hle]; simp
    · intro _; exact ⟨hs, key _ hp rfl hs⟩
  · have hs : sent (load_events cfg frame ++ run_events ++ [.stderr .run])
        = [capture_message cfg frame] := by
      rw [sent_append, sent_append, hsl]; rfl
    refine ⟨_, hp, ⟨before_capture cfg frame, after_capture frame ++ (run_events
      ++ [.stderr .run]), ?_, engine_calls_before_capture cfg frame,
      sent_before_capture cfg frame, head_engine_calls_after_capture frame _⟩, ?_⟩
    · rw [hle]; simp
    · intro _; exact ⟨hs, key _ hp rfl hs⟩
  · have hs : sent (load_events cfg frame ++ run_events ++ boxes_events o ++ [.stderr .boxes])
        = [capture_message cfg frame] := by
      rw [sent_append, sent_append, sent_append, hsl]; rfl
    refine ⟨_, hp, ⟨before_capture cfg frame, after_capture frame ++ (run_events
      ++ boxes_events o ++ [.stderr .boxes]), ?_, engine_calls_before_capture cfg frame,
      sent_before_capture cfg frame, head_engine_calls_after_capture frame _⟩, ?_⟩
    · rw [hle]; simp
    · intro _; exact ⟨hs, key _ hp rfl hs⟩
  · refine ⟨_, hp, ⟨before_capture cfg frame, after_capture frame ++ (run_events
      ++ boxes_events o ++ publish_events cfg frame fps o), ?_,
      engine_calls_before_capture cfg frame, sent_before_capture cfg frame,
      head_engine_calls_after_capture frame _⟩, ?_⟩
    · rw [hle]; simp
    · intro herr
      rcases herr with h | h | h
      · exact absurd h1 h
      · exact absurd h2 h
      · exact absurd h3 h

/-- Witness of C14: the model run fails after the capture event was sent. -/
theorem capture_without_result_witness :
    (Loop.init.status = .looping ∧ ex_cfg.capture ≠ "" ∧ ex_run_failed.wait = some ex_frame ∧
      ex_run_failed.trylock = 0 ∧ ex_run_failed.defined Loop.init.fps_state ∧
      ex_run_failed.run_err ≠ 0) ∧
    ∃ r, handle_vsl ex_cfg Loop.init.fps_state ex_run_failed = some r ∧
      sent r.trace = [capture_message ex_cfg ex_frame] ∧
      ∃ l1, main_step ex_cfg Loop.init 1 ex_run_failed = some l1 ∧
        l1.status = .returned EXIT_FAILURE ∧ main_loop ex_cfg l1 [(1, ex_cycle)] = some l1 :=
  ⟨⟨rfl, by decide, rfl, rfl, by simp [Cycle.defined, ex_run_failed, ex_cycle, Loop.init,
      FpsState.init], by decide⟩,
   (capture_without_result ex_cfg Loop.init 1 ex_run_failed ex_frame [(1, ex_cycle)] rfl
      (by decide) (by decide) rfl rfl
      (by simp [Cycle.defined, ex_run_failed, ex_cycle, Loop.init, FpsState.init])).imp
     fun _ h =>
       ⟨h.1, (h.2.2 (Or.inr (Or.inl (by decide)))).1,
        (h.2.2 (Or.inr (Or.inl (by decide)))).2.imp fun _ g => ⟨g.1, g.2.1, g.2.2.2⟩⟩⟩

/-! ## Range of the samples and of their sum -/

theorem intervals_nonzero_of_at_least (d : Int) (hd : 0 < d) (ts : List Int) :
    ∀ prev, intervals_at_least d prev ts → intervals_nonzero prev ts := by
  induction ts with
  | nil => intro prev _; trivial
  | cons t ts ih =>
    intro prev h
    exact ⟨by have := h.1; omega, ih t h.2⟩

theorem sample_of_long_interval (e : Int) (h : 14 ≤ e) :
    0 ≤ NSEC_PER_SEC.tdiv e ∧ NSEC_PER_SEC.tdiv e ≤ 71428571 := by
  have h0 : (0 : Int) ≤ NSEC_PER_SEC := by decide
  rw [Int.tdiv_eq_ediv h0 (by omega)]
  have hN : NSEC_PER_SEC = 1000000000 := by decide
  constructor
  · exact Int.ediv_nonneg h0 (by omega)
  · have : NSEC_PER_SEC / e < 71428572 := Int.ediv_lt_of_lt_mul (by omega) (by omega)
    omega

theorem samples_of_long_intervals (ts : List Int) :
    ∀ prev, intervals_at_least 14 prev ts →
      ∀ x ∈ samples_from prev ts, 0 ≤ x ∧ x ≤ 71428571 := by
  induction ts with
  | nil => intro prev _ x hx; cases hx
  | cons t ts ih =>
    intro prev h x hx
    rcases List.mem_cons.mp hx with hx | hx
    · rw [hx]; exact sample_of_long_interval _ h.1
    · exact ih t h.2 x hx

theorem getD_bounds (l : List Int) (b : Int) (hb : 0 ≤ b) (h : ∀ x ∈ l, 0 ≤ x ∧ x ≤ b)
    (i : Nat) : 0 ≤ l.getD i 0 ∧ l.getD i 0 ≤ b := by
  by_cases hi : i < l.length
  · rw [List.getD_eq_getElem _ _ hi]
    exact h _ (List.getElem_mem hi)
  · rw [List.getD_eq_default _ _ (by omega)]
    exact ⟨le_refl 0, hb⟩

theorem history_of_bounds (l : List Int) (b : Int) (hb : 0 ≤ b)
    (h : ∀ x ∈ l, 0 ≤ x ∧ x ≤ b) : ∀ x ∈ history_of l, 0 ≤ x ∧ x ≤ b := by
  intro x hx
  simp only [history_of, List.mem_map, List.mem_range] at hx
  obtain ⟨j, -, rfl⟩ := hx
  split
  · exact getD_bounds l b hb h _
  · exact ⟨le_refl 0, hb⟩

theorem sum_bounds (b : Int) (l : List Int) (h : ∀ x ∈ l, 0 ≤ x ∧ x ≤ b) :
    0 ≤ l.sum ∧ l.sum ≤ (l.length : Int) * b := by
  induction l with
  | nil => simp
  | cons a l ih =>
    have ha := h a (List.mem_cons_self a l)
    have hl := ih (fun x hx => h x (List.mem_cons_of_mem a hx))
    simp only [List.sum_cons, List.length_cons, Nat.cast_add, Nat.cast_one]
    constructor
    · omega
    · have : ((l.length : Int) + 1) * b = (l.length : Int) * b + b := by ring
      omega

theorem take_sum_bounds (l : List Int) (hlen : l.length = 30)
    (h : ∀ x ∈ l, 0 ≤ x ∧ x ≤ 71428571) (n : Nat) :
    0 ≤ (l.take n).sum ∧ (l.take n).sum ≤ 2142857130 := by
  have hb := sum_bounds 71428571 (l.take n) (fun x hx => h x (List.mem_of_mem_take hx))
  have hl : (l.take n).length ≤ 30 := by rw [List.length_take]; omega
  have hl2 : ((l.take n).length : Int) ≤ 30 := by exact_mod_cast hl
  constructor
  · exact hb.1
  · nlinarith [hb.2]

/-- C15: with the history and the accumulator as 32-bit signed `int`, the sample
`1e9 / elapsed` of a non-zero elapsed interval has absolute value at most 1e9
and is stored without truncation; and in a sequence of calls whose elapsed
intervals are all at least 14 ns the sum of the slots, at every step of the
summing loop, stays between 0 and 2142857130, within the 32-bit range, so that
the call returns the exact truncated mean: the sum of the last `min k 30`
samples divided by 30. -/
theorem update_fps_no_overflow :
    (∀ e : Int, e ≠ 0 →
      (NSEC_PER_SEC.tdiv e).natAbs ≤ 1000000000 ∧
        to_int (NSEC_PER_SEC.tdiv e) = NSEC_PER_SEC.tdiv e) ∧
    ∀ (ts : List Int) (t : Int), intervals_at_least 14 0 (ts ++ [t]) →
      ∃ s rs s1 r, fps_calls FpsState.init ts = some (s, rs) ∧
        update_fps s t = some (s1, r) ∧
        (∀ n, 0 ≤ (s1.fps_history.take n).sum ∧ (s1.fps_history.take n).sum ≤ 2142857130) ∧
        sum_history s1.fps_history = s1.fps_history.sum ∧
        r = s1.fps_history.sum.tdiv 30 ∧
        r = (last_samples (min (ts.length + 1) 30) (samples_from 0 (ts ++ [t]))).sum.tdiv 30 := by
  constructor
  · intro e _
    have hs := sample_range e
    exact ⟨by omega, to_int_of_range _ (by omega) (by omega)⟩
  · intro ts t h
    have hnz := intervals_nonzero_of_at_least 14 (by decide) (ts ++ [t]) 0 h
    obtain ⟨h1, h2⟩ := (intervals_nonzero_snoc ts t 0).mp hnz
    obtain ⟨rs, hrs⟩ := fps_calls_state ts h1
    have hall := history_of_bounds _ 71428571 (by decide)
      (samples_of_long_intervals (ts ++ [t]) 0 h)
    have htake := take_sum_bounds _ (history_of_length _) hall
    have hsum : (history_of (samples_from 0 (ts ++ [t]))).sum
        = ((history_of (samples_from 0 (ts ++ [t]))).take 30).sum := by
      rw [← history_of_length (samples_from 0 (ts ++ [t])), List.take_length]
    have hrange := htake 30
    rw [← hsum] at hrange
    have hwrap := to_int_of_range (history_of (samples_from 0 (ts ++ [t]))).sum
      (by omega) (by omega)
    refine ⟨state_after ts, rs, state_after (ts ++ [t]), _, hrs,
      update_fps_state_after ts t h2, htake, ?_, ?_, ?_⟩
    · show sum_history (history_of (samples_from 0 (ts ++ [t]))) = _
      rw [sum_history_eq _ (history_of_length _), hwrap]
      rfl
    · show _ = (history_of (samples_from 0 (ts ++ [t]))).sum.tdiv 30
      rw [hwrap]
    · rw [hwrap, history_of_sum]
      unfold last_samples
      congr 3
      rw [samples_from_length]
      simp only [List.length_append, List.length_singleton]
      omega

/-- Witness of C15: the interval 14 ns, three times. -/
theorem update_fps_no_overflow_witness :
    ((14 : Int) ≠ 0 ∧ intervals_at_least 14 0 ([14, 28] ++ [42])) ∧
    ((NSEC_PER_SEC.tdiv 14).natAbs ≤ 1000000000 ∧
      to_int (NSEC_PER_SEC.tdiv 14) = NSEC_PER_SEC.tdiv 14) ∧
    ∃ s rs s1 r, fps_calls FpsState.init [14, 28] = some (s, rs) ∧
      update_fps s 42 = some (s1, r) ∧ r = s1.fps_history.sum.tdiv 30 :=
  ⟨⟨by decide, by simp [intervals_at_least]⟩,
   update_fps_no_overflow.1 14 (by decide),
   (update_fps_no_overflow.2 [14, 28] 42 (by simp [intervals_at_least])).imp
     fun _ h => h.imp fun _ g => g.imp fun _ k => k.imp fun _ q =>
       ⟨q.1, q.2.1, q.2.2.2.2.1⟩⟩

/-! ## Completion of `update_fps` -/

theorem update_fps_eq_none_iff (s : FpsState) (t : Int) :
    update_fps s t = none ↔ t - s.previous_time = 0 := by
  unfold update_fps
  by_cases h : t - s.previous_time = 0
  · simp [h]
  · simp [h]

theorem fps_calls_length (ts : List Int) :
    ∀ s s1 rs, fps_calls s ts = some (s1, rs) → rs.length = ts.length := by
  induction ts with
  | nil =>
    intro s s1 rs h
    simp only [fps_calls, Option.some.injEq, Prod.mk.injEq] at h
    rw [← h.2]
  | cons t ts ih =>
    intro s s1 rs h
    simp only [fps_calls] at h
    cases hu : update_fps s t with
    | none => simp [hu] at h
    | some p =>
      obtain ⟨s2, r⟩ := p
      cases hc : fps_calls s2 ts with
      | none => simp [hu, hc] at h
      | some q =>
        obtain ⟨s3, rs3⟩ := q
        simp only [hu, hc, Option.some.injEq, Prod.mk.injEq] at h
        rw [← h.2, List.length_cons, List.length_cons, ih s2 s3 rs3 hc]

/-- C11, as amended: the divisor `frame_time.count()` of `update_fps` is zero,
and the call without result, exactly when the clock reading equals the previous
one (0 before the first call); in every sequence of calls whose elapsed
intervals are all non-zero, every call completes and returns a value. -/
theorem update_fps_completes :
    (∀ (s : FpsState) (t : Int), update_fps s t = none ↔ t - s.previous_time = 0) ∧
    ∀ ts : List Int, intervals_nonzero 0 ts →
      ∃ s rs, fps_calls FpsState.init ts = some (s, rs) ∧ rs.length = ts.length := by
  refine ⟨update_fps_eq_none_iff, fun ts h => ?_⟩
  obtain ⟨rs, hrs⟩ := fps_calls_state ts h
  exact ⟨state_after ts, rs, hrs, fps_calls_length ts _ _ _ hrs⟩

/-- Witness of C11: two calls at different clock readings. -/
theorem update_fps_completes_witness :
    intervals_nonzero 0 [5, 6] ∧
    ∃ s rs, fps_calls FpsState.init [5, 6] = some (s, rs) ∧ rs.length = [5, 6].length :=
  ⟨by simp [intervals_nonzero], update_fps_completes.2 [5, 6] (by simp [intervals_nonzero])⟩

/-- Counterexample to C11 as stated: the first of two calls at the clock reading
5 returns 6666666 and leaves 5 as previous time; in the second the divisor is
5 - 5 = 0 and the division has no result.  So has a first call at reading 0. -/
theorem update_fps_zero_divisor :
    fps_calls FpsState.init [5] = some (state_after [5], [6666666]) ∧
    (5 : Int) - (state_after [5]).previous_time = 0 ∧
    update_fps (state_after [5]) 5 = none ∧
    fps_calls FpsState.init [5, 5] = none ∧
    update_fps FpsState.init 0 = none :=
  ⟨by decide, by decide, by decide, by decide, by decide⟩

/-! ## The IoU option -/

/-- The `switch` of `main` never assigns `iou`. -/
theorem main_switch_iou (opts : List (Char × String)) :
    ∀ st st1, main_switch st opts = .settings st1 → st1.iou = st.iou := by
  induction opts with
  | nil =>
    intro st st1 h
    simp only [main_switch, Parsed.settings.injEq] at h
    rw [h]
  | cons x rest ih =>
    intro st st1 h
    obtain ⟨opt, optarg⟩ := x
    simp only [main_switch] at h
    split at h
    · cases h
    · cases h
    all_goals first
      | (have hi := ih _ _ h; exact hi)
      | cases h

/-- Whatever the arguments, settings that `main` goes on with hand the engine
the initial `0.5f` as `iou_threshold`. -/
theorem main_options_iou (argv : List String) (st : Settings)
    (h : main_options argv = .settings st) : iou_threshold st = .initial "0.5f" := by
  unfold main_options at h
  split at h
  · cases h
  · rename_i st0 h0
    split at h
    · cases h
    · simp only [Parsed.settings.injEq] at h
      rw [← h]
      exact main_switch_iou _ _ _ h0

/-- C12, evaluation at the failing input: for the arguments `-I 0.7 MODEL`, and
for `-I v MODEL` and `--iou v MODEL` with any `v`, `getopt_long` returns `'I'`
with `optarg = v`, the `switch` has no case for it, and `main` returns
`EXIT_FAILURE` instead of going on with an IoU threshold of `v`. -/
theorem iou_option_rejected :
    main_options ["detect", "-I", "0.7", "model.rtm"] = .exit EXIT_FAILURE ∧
    ∀ v model : String,
      (getopt_long none ["-I", v, model] []).1.head? = some ('I', v) ∧
      (getopt_long none ["--iou", v, model] []).1.head? = some ('I', v) ∧
      main_options ["detect", "-I", v, model] = .exit EXIT_FAILURE ∧
      main_options ["detect", "--iou", v, model] = .exit EXIT_FAILURE :=
  ⟨rfl, fun _ _ => ⟨rfl, rfl, rfl, rfl⟩⟩

/-! ## Round trip of the result message -/

namespace data

theorem box_round_trip (b : box) : box_from_json (some (box_to_json b)) = some b := rfl

theorem object_round_trip (ob : object) : object_from_json (object_to_json ob) = some ob := rfl

theorem objects_round_trip (l : List object) :
    items_from_json (l.map object_to_json) = some l := by
  induction l with
  | nil => rfl
  | cons ob l ih =>
    rw [List.map_cons, items_from_json, object_round_trip, ih]

theorem result_round_trip (r : result) : result_from_json (result_to_json r) = some r := by
  have h := objects_round_trip r.objects
  simp [result_from_json, result_to_json, List.lookup, objects_from_json, integer_value, h]

end data

/-- Absent fields take their defaults: the empty JSON object reads back as the
record of zeros with no objects. -/
theorem result_from_empty :
    data.result_from_json (.object []) = some
      { timestamp := 0, fps := 0, load_ns := 0, model_ns := 0, boxes_ns := 0, objects := [] } :=
  rfl

/-- C8: for every topic string and every result record, the message is the
topic string followed by the rendering of the JSON object with keys timestamp,
fps, load_ns, model_ns, boxes_ns and objects, each object with bbox (xmin, xmax,
ymin, ymax), score and label, and deserialising that body yields the record
that was serialised, objects in order; every result message sent by
`handle_vsl` is such a message, with the configured topic. -/
theorem result_message_round_trip :
    (∀ (topic : String) (res : data.result),
      (∀ dump : Json → String,
        Message.text dump { topic := topic, payload := .result res }
          = topic ++ dump (data.result_to_json res)) ∧
      data.result_to_json res = .object
        [("timestamp", .integer res.timestamp), ("fps", .integer res.fps),
         ("load_ns", .integer res.load_ns), ("model_ns", .integer res.model_ns),
         ("boxes_ns", .integer res.boxes_ns),
         ("objects", .array (res.objects.map fun ob => .object
            [("bbox", .object [("xmin", .number ob.bbox.xmin), ("xmax", .number ob.bbox.xmax),
                               ("ymin", .number ob.bbox.ymin), ("ymax", .number ob.bbox.ymax)]),
             ("score", .number ob.score), ("label", .string ob.label)]))] ∧
      data.result_from_json (Message.body { topic := topic, payload := .result res })
        = some res) ∧
    ∀ (cfg : Config) (s : FpsState) (o : Cycle) (r : Ret), handle_vsl cfg s o = some r →
      ∀ m ∈ sent r.trace, m.isResult = true →
        ∃ res, m = { topic := cfg.topic, payload := .result res } ∧
          data.result_from_json m.body = some res := by
  refine ⟨fun topic res => ⟨fun _ => rfl, rfl, data.result_round_trip res⟩, ?_⟩
  intro cfg s o r hr m hm hres
  have hcap : ∀ frame, ∀ x ∈ (if cfg.capture.length ≠ 0 then [capture_message cfg frame] else []),
      x.isResult = false := by
    intro frame x hx
    split at hx
    · rw [List.mem_singleton.mp hx]; rfl
    · cases hx
  rcases sent_handle_vsl cfg s o r hr with h0 | ⟨frame, -, h1 | ⟨fps, h2⟩⟩
  · rw [h0] at hm; cases hm
  · rw [h1] at hm
    rw [hcap frame m hm] at hres
    cases hres
  · rw [h2] at hm
    rcases List.mem_append.mp hm with hm | hm
    · rw [hcap frame m hm] at hres
      cases hres
    · have hm1 : m = result_message cfg frame fps o := List.mem_singleton.mp hm
      subst hm1
      exact ⟨result_record cfg frame fps o, rfl, data.result_round_trip _⟩

/-- Witness of C8: the result message of the sample cycle. -/
theorem result_message_round_trip_witness :
    (handle_vsl ex_cfg FpsState.init ex_cycle = some ex_ret ∧
      result_message ex_cfg ex_frame 33333 ex_cycle ∈ sent ex_ret.trace ∧
      (result_message ex_cfg ex_frame 33333 ex_cycle).isResult = true) ∧
    ∃ res, result_message ex_cfg ex_frame 33333 ex_cycle
        = { topic := ex_cfg.topic, payload := .result res } ∧
      data.result_from_json (result_message ex_cfg ex_frame 33333 ex_cycle).body = some res :=
  ⟨⟨by decide, by decide, rfl⟩,
   result_message_round_trip.2 ex_cfg FpsState.init ex_cycle ex_ret (by decide)
     (result_message ex_cfg ex_frame 33333 ex_cycle) (by decide) rfl⟩

end Detect
